import Mathlib

/-!
Verification development for the switchyard dispatch engine and the
piper (Wyoming-protocol) text-to-speech client.

The definitions below are a shallow embedding of the Go sources:

* `internal/message/message.go` — the data model (Message, Instruction,
  Target, Command, DispatchResult, response modes).
* `internal/dispatch/dispatch.go` — the dispatch engine (`Handle`,
  `resolveResponseMode`, `wantText`, `wantAudio`).
* `internal/tts/piper/piper.go` — the Wyoming protocol client
  (`New`, `Synthesize`, `writeEvent`, `readEvent`, `pcmToWAV`).

Conventions of the embedding:

* Byte sequences are `List Nat`.  In text sections of the wire protocol a
  list entry is one Unicode scalar value (so it coincides with the byte
  for ASCII data); binary payload entries are plain bytes.
* Machine-integer truncation (Go's `uint32(..)`/`uint16(..)` conversions
  in the WAV writer) is explicit `% 2^32` / `% 2^16` arithmetic on `Int`.
* External collaborators of the dispatch engine (the interpreter, the
  transports, the synthesizer, and the `json.Marshal` serialization of
  the result) are fields of the `Dispatcher` environment record, mirroring
  the interface values the Go `Dispatcher` struct holds.  All of them are
  fallible (`Except String`), as in the source.
* I/O streams are lists: the bytes available on a connection, or the
  already-decoded events a synthesis server answers with.
-/

/-! ## Data model (internal/message/message.go) -/

/-- Response-mode constant `"none"`. -/
def responseModeNone : String := "none"

/-- Response-mode constant `"text"`. -/
def responseModeText : String := "text"

/-- Response-mode constant `"audio"`. -/
def responseModeAudio : String := "audio"

/-- Response-mode constant `"text+audio"`. -/
def responseModeTextAudio : String := "text+audio"

/-- `Target` from message.go: a downstream service to receive commands. -/
structure Target where
  serviceName : String
  endpoint : String
  protocol : String
  formatTemplate : String := ""
deriving DecidableEq, Repr

/-- `Instruction` from message.go.  `responseMode` is a plain string, as
in the Go source (`ResponseMode string`). -/
structure Instruction where
  targets : List Target := []
  commandFormat : String := ""
  responseMode : String := ""
  prompt : String := ""
deriving DecidableEq, Repr

/-- `Message` from message.go.  Audio is a byte list (`nil` slice and empty
slice are both `[]`, which is faithful: Go only ever tests `len(m.Audio)`). -/
structure Message where
  id : String := ""
  source : String := ""
  audio : List Nat := []
  contentType : String := ""
  text : String := ""
  instruction : Instruction := {}
deriving DecidableEq, Repr

/-- `Message.HasAudio`: true iff the audio payload is non-empty. -/
def Message.hasAudio (m : Message) : Bool := m.audio.length > 0

/-- `Command` from message.go.  The `params` map and the raw JSON payload
are carried opaquely (`raw` is the original JSON text); the dispatch engine
never inspects them. -/
structure Command where
  action : String := ""
  raw : String := ""
deriving DecidableEq, Repr

/-- Standard base64 index-to-character table (RFC 4648), as used by Go's
`base64.StdEncoding`. -/
def b64char (n : Nat) : Char :=
  if n < 26 then Char.ofNat (65 + n)
  else if n < 52 then Char.ofNat (97 + (n - 26))
  else if n < 62 then Char.ofNat (48 + (n - 52))
  else if n = 62 then '+' else '/'

/-- `base64.StdEncoding.EncodeToString`: standard base64 with padding. -/
def base64Encode : List Nat → String
  | [] => ""
  | [a] =>
    String.mk [b64char (a / 4 % 64), b64char (a % 4 * 16), '=', '=']
  | [a, b] =>
    String.mk [b64char (a / 4 % 64), b64char (a % 4 * 16 + b / 16 % 16),
      b64char (b % 16 * 4), '=']
  | a :: b :: c :: rest =>
    String.mk [b64char (a / 4 % 64), b64char (a % 4 * 16 + b / 16 % 16),
      b64char (b % 16 * 4 + c / 64 % 4), b64char (c % 64)] ++ base64Encode rest

/-- `DispatchResult` from message.go, created empty and filled by the
dispatch engine.  `responseAudio` is the base64 string field. -/
structure DispatchResult where
  messageID : String := ""
  transcript : String := ""
  language : String := ""
  commands : List Command := []
  routedTo : List String := []
  responseText : String := ""
  responseAudio : String := ""
  responseContentType : String := ""
  error : String := ""
deriving DecidableEq, Repr

/-- `DispatchResult.SetResponseAudioBytes`: base64-encode raw audio into
`responseAudio`; a no-op on empty audio. -/
def setResponseAudioBytes (r : DispatchResult) (audio : List Nat) : DispatchResult :=
  if audio.length > 0 then { r with responseAudio := base64Encode audio } else r

/-! ## Dispatch engine (internal/dispatch/dispatch.go) -/

/-- `interpreter.TranscribeOpts` (the dispatch engine only sets `Prompt`). -/
structure TranscribeOpts where
  language : String := ""
  prompt : String := ""
  model : String := ""
deriving DecidableEq, Repr

/-- `interpreter.TranscribeResult`: transcription text plus detected language. -/
structure TranscribeResult where
  text : String := ""
  language : String := ""
deriving DecidableEq, Repr

/-- `interpreter.InterpretResult`: commands plus natural-language response. -/
structure InterpretResult where
  commands : List Command := []
  responseText : String := ""
deriving DecidableEq, Repr

/-- `tts.SynthesizeOpts`: language and optional explicit voice override. -/
structure SynthesizeOpts where
  language : String := ""
  voice : String := ""
deriving DecidableEq, Repr

/-- `tts.SynthesizeResult`: synthesized audio bytes plus metadata. -/
structure SynthesizeResult where
  audio : List Nat := []
  contentType : String := ""
  sampleRate : Int := 0
  channels : Int := 0
deriving DecidableEq, Repr

/-- The `Dispatcher` environment: the interpreter, the transport table,
the optional synthesizer, and the result serializer.

* `transcribe`/`interpret` embed the `interpreter.Interpreter` interface.
* `transports` is the protocol-name → transport map built by `New`; a
  transport is its `Send` function (success or failure per call).
* `synthesizer` is `none` when TTS is disabled (`d.synthesizer == nil`).
* `marshalResult` embeds `json.Marshal` applied to the `DispatchResult`.
  In Go this call is fallible — e.g. it returns an error when a
  `Command.Raw` produced by the interpreter holds invalid JSON
  (`json: error calling MarshalJSON for type json.RawMessage`). -/
structure Dispatcher where
  transcribe : List Nat → String → TranscribeOpts → Except String TranscribeResult
  interpret : String → Instruction → Except String InterpretResult
  synthesizer : Option (String → SynthesizeOpts → Except String SynthesizeResult)
  transports : String → Option (Target → List Nat → Except String Unit)
  marshalResult : DispatchResult → Except String (List Nat)

/-- `resolveResponseMode` (dispatch.go): keep a recognized mode, otherwise
default by synthesizer presence. -/
def resolveResponseMode (synthesizerPresent : Bool) (mode : String) : String :=
  if mode = responseModeNone ∨ mode = responseModeText ∨
      mode = responseModeAudio ∨ mode = responseModeTextAudio then mode
  else if synthesizerPresent then responseModeTextAudio
  else responseModeText

/-- `wantText` (dispatch.go). -/
def wantText (mode : String) : Bool :=
  mode = responseModeText || mode = responseModeTextAudio

/-- `wantAudio` (dispatch.go). -/
def wantAudio (mode : String) : Bool :=
  mode = responseModeAudio || mode = responseModeTextAudio

/-- Trace entry: one collaborator call made during `handle`.  The trace
records which pipeline stages actually ran. -/
inductive Call where
  | transcribeCall (audio : List Nat)
  | interpretCall (transcript : String)
  | synthesizeCall (text : String)
  | marshalCall
  | visit (t : Target)
  | sendCall (t : Target)
deriving DecidableEq, Repr

/-- True on a `visit` trace entry. -/
def Call.isVisit : Call → Bool
  | .visit _ => true
  | _ => false

/-- True on an `interpretCall` trace entry. -/
def Call.isInterpret : Call → Bool
  | .interpretCall _ => true
  | _ => false

/-- True on a `synthesizeCall` trace entry. -/
def Call.isSynthesize : Call → Bool
  | .synthesizeCall _ => true
  | _ => false

/-- True on a `sendCall` trace entry. -/
def Call.isSendCall : Call → Bool
  | .sendCall _ => true
  | _ => false

/-- Step 1 of `Handle` (dispatch.go lines 81–106): obtain the transcript.
Returns the transcript and detected language, or the error string that
`Handle` stores in `DispatchResult.Error`, together with the calls made. -/
def obtainTranscript (d : Dispatcher) (msg : Message) :
    Except String (String × String) × List Call :=
  if msg.hasAudio then
    match d.transcribe msg.audio msg.contentType { prompt := msg.instruction.prompt } with
    | .error e => (.error ("transcription failed: " ++ e), [.transcribeCall msg.audio])
    | .ok res => (.ok (res.text, res.language), [.transcribeCall msg.audio])
  else if msg.text ≠ "" then (.ok (msg.text, ""), [])
  else (.error "message has no audio and no text", [])

/-- Step 3 of `Handle` (dispatch.go lines 118–139): optional, non-fatal
synthesis.  Mirrors `wantAudio(respMode) && d.synthesizer != nil &&
interpResult.ResponseText != ""`; on failure the result is unchanged. -/
def synthStage (d : Dispatcher) (respMode detectedLang : String)
    (ir : InterpretResult) (r : DispatchResult) : DispatchResult × List Call :=
  match d.synthesizer with
  | none => (r, [])
  | some synth =>
    if wantAudio respMode ∧ ir.responseText ≠ "" then
      let lang := if detectedLang = "" then "en" else detectedLang
      match synth ir.responseText { language := lang } with
      | .error _ => (r, [.synthesizeCall ir.responseText])
      | .ok sr =>
        ({ setResponseAudioBytes r sr.audio with responseContentType := sr.contentType },
         [.synthesizeCall ir.responseText])
    else (r, [])

/-- Step 4 of `Handle` (dispatch.go lines 148–162): the routing loop.
Returns the `RoutedTo` list and the per-target trace. -/
def routeTargets (transports : String → Option (Target → List Nat → Except String Unit))
    (payload : List Nat) : List Target → List String × List Call
  | [] => ([], [])
  | t :: rest =>
    match transports t.protocol with
    | none =>
      let (rs, cs) := routeTargets transports payload rest
      (rs, .visit t :: cs)
    | some send =>
      match send t payload with
      | .error _ =>
        let (rs, cs) := routeTargets transports payload rest
        (rs, .visit t :: .sendCall t :: cs)
      | .ok _ =>
        let (rs, cs) := routeTargets transports payload rest
        (t.serviceName :: rs, .visit t :: .sendCall t :: cs)

/-- Step 2 result recording plus step 3's text population (dispatch.go
lines 115–121): record the commands, and copy the interpreter's response
text when the resolved mode wants text. -/
def populateText (respMode : String) (ir : InterpretResult) (r : DispatchResult) :
    DispatchResult :=
  let r2 := { r with commands := ir.commands }
  if wantText respMode then { r2 with responseText := ir.responseText } else r2

/-- Step 4 of `Handle` (dispatch.go lines 141–162): serialize the current
result once; on failure record the marshalling error, otherwise run the
routing loop over the targets. -/
def marshalAndRoute (d : Dispatcher) (msg : Message) (r4 : DispatchResult) :
    DispatchResult × List Call :=
  match d.marshalResult r4 with
  | .error e => ({ r4 with error := "marshalling result: " ++ e }, [.marshalCall])
  | .ok payload =>
    let (routed, csR) := routeTargets d.transports payload msg.instruction.targets
    ({ r4 with routedTo := routed }, .marshalCall :: csR)

/-- Steps 2–4 of `Handle`: interpret, populate responses, serialize, route. -/
def interpretOn (d : Dispatcher) (msg : Message) (respMode : String)
    (r1 : DispatchResult) (transcript detectedLang : String) :
    DispatchResult × List Call :=
  match d.interpret transcript msg.instruction with
  | .error e =>
    ({ r1 with error := "interpretation failed: " ++ e }, [.interpretCall transcript])
  | .ok ir =>
    let (r4, cs4) := synthStage d respMode detectedLang ir (populateText respMode ir r1)
    let (r5, cs5) := marshalAndRoute d msg r4
    (r5, .interpretCall transcript :: (cs4 ++ cs5))

/-- `Handle` (dispatch.go lines 70–168): the full pipeline.  Returns the
`DispatchResult` and the trace of collaborator calls.  There is no failure
channel: every outcome is a returned `DispatchResult`. -/
def handle (d : Dispatcher) (msg : Message) : DispatchResult × List Call :=
  let respMode := resolveResponseMode d.synthesizer.isSome msg.instruction.responseMode
  let r0 : DispatchResult := { messageID := msg.id }
  match obtainTranscript d msg with
  | (.error e, cs) => ({ r0 with error := e }, cs)
  | (.ok (transcript, detectedLang), cs) =>
    let r1 := { r0 with transcript := transcript, language := detectedLang }
    let (r, cs2) := interpretOn d msg respMode r1 transcript detectedLang
    (r, cs ++ cs2)

/-! ## JSON model (encoding/json as used by the Wyoming client)

A JSON value, with numbers restricted to integers (the Wyoming fields the
client reads — `rate`, `channels`, `width`, `payload_length` — are integral;
fractions and exponents are not modelled).  Strings are Lean `String`s; on
the wire one list entry holds one Unicode scalar value. -/
inductive Json where
  | null
  | bool (b : Bool)
  | num (n : Int)
  | str (s : String)
  | arr (elems : List Json)
  | obj (fields : List (String × Json))

/-- Go-map-style field lookup: later bindings overwrite earlier ones,
a missing key or a non-object yields `none`. -/
def Json.lookup (j : Json) (k : String) : Option Json :=
  match j with
  | .obj fields => fields.foldl (fun acc kv => if kv.1 = k then some kv.2 else acc) none
  | _ => none

/-- Numeric field access, modelling `data[k].(float64)`: succeeds exactly
on a JSON number. -/
def jnum (j : Json) (k : String) : Option Int :=
  match j.lookup k with
  | some (.num n) => some n
  | _ => none

/-- String field access, modelling `data[k].(string)`. -/
def jstr (j : Json) (k : String) : Option String :=
  match j.lookup k with
  | some (.str s) => some s
  | _ => none

/-- Codepoints of an ASCII string literal. -/
def ascii (s : String) : List Nat := s.data.map Char.toNat

/-- Lowercase hex digit character code for `n < 16`. -/
def hexDigitChar (n : Nat) : Nat := if n < 10 then 48 + n else 87 + n

/-- Inverse of a hex digit character (`0-9`, `a-f`, `A-F`). -/
def hexVal (c : Nat) : Option Nat :=
  if 48 ≤ c ∧ c ≤ 57 then some (c - 48)
  else if 97 ≤ c ∧ c ≤ 102 then some (c - 87)
  else if 65 ≤ c ∧ c ≤ 70 then some (c - 55)
  else none

/-- Go `encoding/json` string escaping for one character (`json.Marshal`
defaults, HTML escaping on): quote and backslash escaped, `\n` `\r` `\t`
short forms, other control characters as `\u00XX`, `<` `>` `&` as
`<`/`>`/`&`, U+2028/U+2029 escaped, all else verbatim. -/
def escapeChar (c : Nat) : List Nat :=
  if c = 34 then [92, 34]
  else if c = 92 then [92, 92]
  else if c = 10 then [92, 110]
  else if c = 13 then [92, 114]
  else if c = 9 then [92, 116]
  else if c < 32 then [92, 117, 48, 48, hexDigitChar (c / 16), hexDigitChar (c % 16)]
  else if c = 60 ∨ c = 62 ∨ c = 38 then
    [92, 117, 48, 48, hexDigitChar (c / 16), hexDigitChar (c % 16)]
  else if c = 8232 then [92, 117, 50, 48, 50, 56]
  else if c = 8233 then [92, 117, 50, 48, 50, 57]
  else [c]

/-- Escape a character list. -/
def escapeChars : List Char → List Nat
  | [] => []
  | c :: cs => escapeChar c.toNat ++ escapeChars cs

/-- Escape a string for a JSON string literal. -/
def escapeStr (s : String) : List Nat := escapeChars s.data

/-- Decimal digit predicate on a character code. -/
def isDigit (c : Nat) : Bool := 48 ≤ c && c ≤ 57

/-- Decimal representation of a natural number (character codes). -/
def natDec (n : Nat) : List Nat :=
  if n = 0 then [48] else ((Nat.digits 10 n).map (fun d => 48 + d)).reverse

/-- Decimal representation of an integer (character codes). -/
def intDec (n : Int) : List Nat :=
  if n < 0 then 45 :: natDec n.natAbs else natDec n.toNat

/-- Value of a digit-code list read most-significant first. -/
def digitsToNat (ds : List Nat) : Nat :=
  ds.foldl (fun acc d => acc * 10 + (d - 48)) 0

/- Serialize a JSON value, compact form, object fields in list order
(Go sorts map keys before serializing; callers of the serializer in this
development list fields in sorted key order). -/
mutual

def serializeJson : Json → List Nat
  | .null => ascii "null"
  | .bool true => ascii "true"
  | .bool false => ascii "false"
  | .num n => intDec n
  | .str s => 34 :: (escapeStr s ++ [34])
  | .arr elems => 91 :: (serializeElems elems ++ [93])
  | .obj fields => 123 :: (serializeFields fields ++ [125])

def serializeElems : List Json → List Nat
  | [] => []
  | [x] => serializeJson x
  | x :: y :: rest => serializeJson x ++ 44 :: serializeElems (y :: rest)

def serializeFields : List (String × Json) → List Nat
  | [] => []
  | [kv] => 34 :: (escapeStr kv.1 ++ [34, 58] ++ serializeJson kv.2)
  | kv :: kv2 :: rest =>
    (34 :: (escapeStr kv.1 ++ [34, 58] ++ serializeJson kv.2)) ++
      44 :: serializeFields (kv2 :: rest)

end

/- Structural size of a JSON value, used as parser fuel measure. -/
mutual

def jsize : Json → Nat
  | .null => 1
  | .bool _ => 1
  | .num _ => 1
  | .str _ => 1
  | .arr elems => 1 + jsizeElems elems
  | .obj fields => 1 + jsizeFields fields

def jsizeElems : List Json → Nat
  | [] => 0
  | x :: xs => 1 + jsize x + jsizeElems xs

def jsizeFields : List (String × Json) → Nat
  | [] => 0
  | kv :: kvs => 1 + jsize kv.2 + jsizeFields kvs

end

/-- Parse a JSON string body (the opening quote already consumed),
accumulating characters; returns the string and the remaining input.
Handles the standard escapes and `\uXXXX` (lone escapes only; surrogate
pairing is not modelled).  Raw control characters are rejected, as in Go. -/
def parseStringBody : List Nat → List Char → Except String (String × List Nat)
  | [], _ => .error "unterminated string"
  | c :: r, acc =>
    if c = 34 then .ok (String.mk acc.reverse, r)
    else if c = 92 then
      match r with
      | [] => .error "unterminated string"
      | e :: r2 =>
        if e = 34 then parseStringBody r2 ('"' :: acc)
        else if e = 92 then parseStringBody r2 ('\\' :: acc)
        else if e = 47 then parseStringBody r2 ('/' :: acc)
        else if e = 98 then parseStringBody r2 (Char.ofNat 8 :: acc)
        else if e = 102 then parseStringBody r2 (Char.ofNat 12 :: acc)
        else if e = 110 then parseStringBody r2 ('\n' :: acc)
        else if e = 114 then parseStringBody r2 (Char.ofNat 13 :: acc)
        else if e = 116 then parseStringBody r2 ('\t' :: acc)
        else if e = 117 then
          match r2 with
          | a :: b :: c2 :: d :: r3 =>
            match hexVal a, hexVal b, hexVal c2, hexVal d with
            | some ha, some hb, some hc, some hd =>
              parseStringBody r3
                (Char.ofNat (((ha * 16 + hb) * 16 + hc) * 16 + hd) :: acc)
            | _, _, _, _ => .error "invalid unicode escape"
          | _ => .error "invalid unicode escape"
        else .error "invalid escape"
    else if c < 32 then .error "control character in string"
    else parseStringBody r (Char.ofNat c :: acc)

/-- Longest digit run at the head of the input. -/
def takeDigits : List Nat → List Nat × List Nat
  | [] => ([], [])
  | c :: r =>
    if isDigit c then
      let (ds, r2) := takeDigits r
      (c :: ds, r2)
    else ([], c :: r)

/- Recursive-descent JSON parse, fuel-bounded (the fuel only bounds
recursion depth; callers supply input length + 1, which always suffices).
Inter-token whitespace is not modelled: the streams this client reads and
writes are compact. -/
mutual

def parseValue : Nat → List Nat → Except String (Json × List Nat)
  | 0, _ => .error "json value too deep"
  | _ + 1, [] => .error "unexpected end of JSON input"
  | fuel + 1, c :: rest =>
    if c = 110 then
      match rest with
      | 117 :: 108 :: 108 :: r => .ok (.null, r)
      | _ => .error "invalid literal"
    else if c = 116 then
      match rest with
      | 114 :: 117 :: 101 :: r => .ok (.bool true, r)
      | _ => .error "invalid literal"
    else if c = 102 then
      match rest with
      | 97 :: 108 :: 115 :: 101 :: r => .ok (.bool false, r)
      | _ => .error "invalid literal"
    else if c = 34 then
      match parseStringBody rest [] with
      | .ok (s, r) => .ok (.str s, r)
      | .error e => .error e
    else if c = 45 then
      match takeDigits rest with
      | ([], _) => .error "invalid number"
      | (ds, r) => .ok (.num (-(digitsToNat ds : Int)), r)
    else if isDigit c then
      match takeDigits rest with
      | (ds, r) => .ok (.num (digitsToNat (c :: ds)), r)
    else if c = 91 then
      if rest.head? = some 93 then .ok (.arr [], rest.tail)
      else
        match parseElems fuel rest with
        | .ok (xs, r) => .ok (.arr xs, r)
        | .error e => .error e
    else if c = 123 then
      if rest.head? = some 125 then .ok (.obj [], rest.tail)
      else
        match parseFields fuel rest with
        | .ok (kvs, r) => .ok (.obj kvs, r)
        | .error e => .error e
    else .error "invalid character"

def parseElems : Nat → List Nat → Except String (List Json × List Nat)
  | 0, _ => .error "json value too deep"
  | fuel + 1, s =>
    match parseValue fuel s with
    | .error e => .error e
    | .ok (x, r) =>
      match r with
      | 44 :: r2 =>
        match parseElems fuel r2 with
        | .ok (xs, r3) => .ok (x :: xs, r3)
        | .error e => .error e
      | 93 :: r2 => .ok ([x], r2)
      | _ => .error "invalid character after array element"

def parseFields : Nat → List Nat → Except String (List (String × Json) × List Nat)
  | 0, _ => .error "json value too deep"
  | fuel + 1, s =>
    match s with
    | 34 :: r =>
      match parseStringBody r [] with
      | .error e => .error e
      | .ok (k, r1) =>
        match r1 with
        | 58 :: r2 =>
          match parseValue fuel r2 with
          | .error e => .error e
          | .ok (v, r3) =>
            match r3 with
            | 44 :: r4 =>
              match parseFields fuel r4 with
              | .ok (kvs, r5) => .ok ((k, v) :: kvs, r5)
              | .error e => .error e
            | 125 :: r4 => .ok ([(k, v)], r4)
            | _ => .error "invalid character after object value"
        | _ => .error "expected colon in object"
    | _ => .error "expected object key"

end

/-- `json.Unmarshal`: parse one JSON value covering the whole input. -/
def jsonUnmarshal (s : List Nat) : Except String Json :=
  match parseValue (s.length + 1) s with
  | .ok (j, []) => .ok j
  | .ok (_, _ :: _) => .error "invalid character after top-level value"
  | .error e => .error e

/-! ## Wyoming wire protocol (internal/tts/piper/piper.go) -/

/-- `wyomingEvent`: `type`, optional `data` object, `payload_length`
(the latter is always zeroed before writing and unused after reading). -/
structure WEvent where
  ty : String := ""
  data : Json := .obj []
  payloadLength : Int := 0

/-- Read the header line: bytes up to the first newline.  An end of input
before a newline is the `io.ReadFull` failure. -/
def readHeaderLine : List Nat → Except String (List Nat × List Nat)
  | [] => .error "EOF"
  | c :: rest =>
    if c = 10 then .ok ([], rest)
    else
      match readHeaderLine rest with
      | .ok (h, r) => .ok (c :: h, r)
      | .error e => .error e

/-- `strings.SplitN(s, " ", 2)`: split at the first space, `none` when the
input has no space (SplitN then yields a single part). -/
def splitFirstSpace : List Nat → Option (List Nat × List Nat)
  | [] => none
  | c :: rest =>
    if c = 32 then some ([], rest)
    else (splitFirstSpace rest).map (fun p => (c :: p.1, p.2))

/-- ASCII whitespace predicate (`strings.TrimSpace` cut set, ASCII part;
Unicode spaces are not modelled). -/
def isSpace (c : Nat) : Bool := c = 32 || (9 ≤ c && c ≤ 13)

/-- `strings.TrimSpace` on a code list. -/
def trimSpace (s : List Nat) : List Nat :=
  ((s.dropWhile isSpace).reverse.dropWhile isSpace).reverse

/-- `strconv.Atoi`: optional sign then one or more digits, nothing else.
(64-bit overflow is not modelled.) -/
def atoi (s : List Nat) : Except String Int :=
  let signed : Int × List Nat :=
    match s with
    | [] => (1, [])
    | c :: r => if c = 45 then (-1, r) else if c = 43 then (1, r) else (1, s)
  if signed.2 ≠ [] ∧ signed.2.all isDigit then
    .ok (signed.1 * (digitsToNat signed.2 : Int))
  else .error "invalid syntax"

/-- `json.Unmarshal` field assignment into a `wyomingEvent` struct: the
top level must be an object (or `null`, leaving the zero value); `type`
must be a JSON string, `data` an object (or `null`), `payload_length` a
number; unknown keys are ignored; duplicate keys apply in order (last
wins), mirroring Go map/struct decoding. -/
def eventOfJson : Json → Except String WEvent
  | .null => .ok {}
  | .obj kvs =>
    kvs.foldlM
      (fun (e : WEvent) kv =>
        if kv.1 = "type" then
          match kv.2 with
          | .str s => .ok { e with ty := s }
          | _ => .error "cannot unmarshal into field Type of type string"
        else if kv.1 = "data" then
          match kv.2 with
          | .obj fields => .ok { e with data := .obj fields }
          | .null => .ok e
          | _ => .error "cannot unmarshal into field Data of type map"
        else if kv.1 = "payload_length" then
          match kv.2 with
          | .num n => .ok { e with payloadLength := n }
          | .null => .ok e
          | _ => .error "cannot unmarshal into field PayloadLength of type int"
        else .ok e)
      {}
  | _ => .error "cannot unmarshal into Go value of type wyomingEvent"

/-- `json.Marshal(evt)` for a `wyomingEvent` whose `PayloadLength` has been
zeroed (as `writeEvent` always does): an object with the `type` field and,
unless the map is nil/empty (`omitempty`), the `data` field;
`payload_length` is zero and omitted. -/
def serializeEvent (evt : WEvent) : List Nat :=
  match evt.data with
  | .obj [] => serializeJson (.obj [("type", .str evt.ty)])
  | .null => serializeJson (.obj [("type", .str evt.ty)])
  | d => serializeJson (.obj [("type", .str evt.ty), ("data", d)])

/-- `writeEvent` (piper.go lines 207–236): header line
`<json_length> <payload_length>\n`, JSON bytes, newline, then the payload. -/
def writeEvent (evt : WEvent) (payload : List Nat) : List Nat :=
  let jsonBytes := serializeEvent evt
  natDec jsonBytes.length ++ 32 :: natDec payload.length ++ 10 :: jsonBytes ++
    10 :: payload

/-- Outcome of `readEvent`: a decoded event with payload and remaining
input, a returned protocol error, or a Go runtime panic (an abort that is
not a returned error). -/
inductive ReadOutcome where
  | ok (evt : WEvent) (payload : List Nat) (rest : List Nat)
  | protoError (msg : String)
  | panicked (msg : String)

/-- True exactly on the `ok` outcome. -/
def ReadOutcome.isOk : ReadOutcome → Bool
  | .ok _ _ _ => true
  | _ => false

/-- `readEvent` (piper.go lines 239–289).  Faithful to the source, including
the two Go runtime panics on a negative declared `json_length`:
`make([]byte, jsonLen+1)` panics when `jsonLen+1 < 0`, and
`jsonBuf[:jsonLen]` panics when `jsonLen = -1` (the slice bound is
negative).  Everything else is a returned error. -/
def readEvent (s : List Nat) : ReadOutcome :=
  match readHeaderLine s with
  | .error e => .protoError ("reading header: " ++ e)
  | .ok (headerBytes, rest1) =>
    match splitFirstSpace headerBytes with
    | none => .protoError "invalid wyoming header"
    | some (p1, p2) =>
      match atoi (trimSpace p1) with
      | .error e => .protoError ("parsing json_length: " ++ e)
      | .ok jsonLen =>
        match atoi (trimSpace p2) with
        | .error e => .protoError ("parsing payload_length: " ++ e)
        | .ok payloadLen =>
          if jsonLen + 1 < 0 then .panicked "makeslice: len out of range"
          else if rest1.length < (jsonLen + 1).toNat then
            .protoError "reading json: unexpected EOF"
          else if jsonLen < 0 then .panicked "slice bounds out of range"
          else
            let jsonBuf := rest1.take jsonLen.toNat
            let rest2 := rest1.drop (jsonLen + 1).toNat
            match jsonUnmarshal jsonBuf with
            | .error e => .protoError ("unmarshalling event: " ++ e)
            | .ok j =>
              match eventOfJson j with
              | .error e => .protoError ("unmarshalling event: " ++ e)
              | .ok evt =>
                if payloadLen > 0 then
                  if rest2.length < payloadLen.toNat then
                    .protoError "reading payload: unexpected EOF"
                  else .ok evt (rest2.take payloadLen.toNat) (rest2.drop payloadLen.toNat)
                else .ok evt [] rest2

/-! ## Piper synthesizer (internal/tts/piper/piper.go) -/

/-- `defaultVoices`: language code → Piper voice model name. -/
def defaultVoices : List (String × String) :=
  [("en", "en_US-lessac-medium"), ("fr", "fr_FR-siwis-medium"),
   ("es", "es_ES-mls_10246-low"), ("de", "de_DE-thorsten-medium"),
   ("it", "it_IT-riccardo-x_low"), ("pt", "pt_BR-faber-medium"),
   ("nl", "nl_NL-mls-medium"), ("pl", "pl_PL-darkman-medium"),
   ("ru", "ru_RU-ruslan-medium"), ("ja", "ja_JP-amitaro-medium"),
   ("ko", "ko_KR-kss-x_low"), ("zh", "zh_CN-huayan-medium")]

/-- `config.PiperConfig`: fallback endpoint, per-language endpoints,
per-language voice overrides. -/
structure PiperConfig where
  endpoint : String := ""
  endpoints : List (String × String) := []
  voices : List (String × String) := []

/-- The piper `Synthesizer` struct: fallback endpoint, per-language
endpoint map, merged voice map. -/
structure PiperSynthesizer where
  endpoint : String := ""
  endpoints : List (String × String) := []
  voices : List (String × String) := []

/-- Go map read `m[k]`: the zero value `""` when `k` is absent; later
bindings overwrite earlier ones (map insertion order). -/
def mapGet (m : List (String × String)) (k : String) : String :=
  m.foldl (fun acc kv => if kv.1 = k then kv.2 else acc) ""

/-- Character-list comparison behind `strings.HasPrefix`. -/
def hasPre : List Char → List Char → Bool
  | _, [] => true
  | [], _ :: _ => false
  | b :: ss, a :: ps => a = b && hasPre ss ps

/-- `strings.TrimPre`-style strip of one leading pattern occurrence. -/
def trimPre (s p : String) : String :=
  if hasPre s.data p.data then String.mk (s.data.drop p.data.length) else s

/-- `cleanEndpoint` from `New`: strip `tcp://` then `http://`. -/
def cleanEndpoint (ep : String) : String :=
  trimPre (trimPre ep "tcp://") "http://"

/-- `New` (piper.go lines 55–83): merge default voices with configured
overrides (configured entries win, even empty-string values), clean the
endpoints. -/
def piperNew (cfg : PiperConfig) : PiperSynthesizer :=
  { endpoint := cleanEndpoint cfg.endpoint,
    endpoints := cfg.endpoints.map (fun kv => (kv.1, cleanEndpoint kv.2)),
    voices := defaultVoices ++ cfg.voices }

/-- Voice selection in `Synthesize` (piper.go lines 91–98): explicit
override, else per-language entry, else the `"en"` entry. -/
def resolveVoice (s : PiperSynthesizer) (opts : SynthesizeOpts) : String :=
  let v0 := opts.voice
  let v1 := if v0 = "" then mapGet s.voices opts.language else v0
  if v1 = "" then mapGet s.voices "en" else v1

/-- Endpoint selection in `Synthesize` (piper.go lines 100–104):
per-language entry, else the fallback endpoint. -/
def resolveEndpoint (s : PiperSynthesizer) (opts : SynthesizeOpts) : String :=
  let ep := mapGet s.endpoints opts.language
  if ep = "" then s.endpoint else ep

/-- Little-endian 32-bit encoding with Go `uint32(..)` truncation. -/
def le32 (n : Int) : List Nat :=
  let m := (n % (2 ^ 32 : Int)).toNat
  [m % 256, m / 256 % 256, m / 65536 % 256, m / 16777216 % 256]

/-- Little-endian 16-bit encoding with Go `uint16(..)` truncation. -/
def le16 (n : Int) : List Nat :=
  let m := (n % (2 ^ 16 : Int)).toNat
  [m % 256, m / 256]

/-- `pcmToWAV` (piper.go lines 292–322): the 44-byte RIFF/WAVE header
followed by the raw PCM bytes. -/
def pcmToWAV (pcm : List Nat) (sampleRate channels bytesPerSample : Int) : List Nat :=
  let dataLen : Int := pcm.length
  let fileLen : Int := 36 + dataLen
  ascii "RIFF" ++ le32 fileLen ++ ascii "WAVE" ++
    ascii "fmt " ++ le32 16 ++ le16 1 ++ le16 channels ++ le32 sampleRate ++
    le32 (sampleRate * channels * bytesPerSample) ++
    le16 (channels * bytesPerSample) ++ le16 (bytesPerSample * 8) ++
    ascii "data" ++ le32 dataLen ++ pcm

/-- The `audio-start` parameter updates: each of `rate`, `channels`,
`width` is taken from the event data when present as a number. -/
def updStart (e : WEvent) (rate channels width : Int) : Int × Int × Int :=
  ((jnum e.data "rate").getD rate,
   (jnum e.data "channels").getD channels,
   (jnum e.data "width").getD width)

/-- The `Synthesize` read loop (piper.go lines 148–192) over the decoded
events the server answers with: `audio-start` updates the parameters,
`audio-chunk` appends its payload, `audio-stop` returns the WAV,
`error` fails with `data.text` (or a generic message), anything else is
ignored.  Exhausting the stream is the `readEvent` failure. -/
def synthLoop (sampleRate channels width : Int) (pcm : List Nat) :
    List (WEvent × List Nat) → Except String SynthesizeResult
  | [] => .error "reading piper event: EOF"
  | (evt, payload) :: rest =>
    if evt.ty = "audio-start" then
      let (r, c, w) := updStart evt sampleRate channels width
      synthLoop r c w pcm rest
    else if evt.ty = "audio-chunk" then
      synthLoop sampleRate channels width (pcm ++ payload) rest
    else if evt.ty = "audio-stop" then
      .ok { audio := pcmToWAV pcm sampleRate channels width,
            contentType := "audio/wav",
            sampleRate := sampleRate, channels := channels }
    else if evt.ty = "error" then
      .error ("piper error: " ++ ((jstr evt.data "text").getD "unknown error"))
    else synthLoop sampleRate channels width pcm rest

/-- The `synthesize` request event `Synthesize` writes: `data = {text,
voice: {name}}` (fields listed in Go's sorted-map-key order). -/
def synthesizeEvent (text voice : String) : WEvent :=
  { ty := "synthesize",
    data := .obj [("text", .str text), ("voice", .obj [("name", .str voice)])] }

/-- `Synthesize` (piper.go lines 86–193).  The remote server is abstracted
by the list of decoded events it answers with; the returned Bool records
whether a connection was attempted (dialing happens after voice/endpoint
resolution and before the event exchange; dial failure itself is not
modelled).  Defaults before `audio-start`: 22050 Hz, 1 channel, width 2. -/
def piperSynthesize (s : PiperSynthesizer) (text : String) (opts : SynthesizeOpts)
    (events : List (WEvent × List Nat)) : Except String SynthesizeResult × Bool :=
  if text = "" then (.error "empty text for synthesis", false)
  else
    let _voice := resolveVoice s opts
    let endpoint := resolveEndpoint s opts
    if endpoint = "" then
      (.error ("no piper endpoint configured for language \"" ++ opts.language ++ "\""),
       false)
    else (synthLoop 22050 1 2 [] events, true)

/-! ## Derived observations used by the specification claims -/

/-- Whether a target would be delivered to: its protocol has a registered
transport and that transport's `Send` succeeds on the payload. -/
def delivered (transports : String → Option (Target → List Nat → Except String Unit))
    (payload : List Nat) (t : Target) : Bool :=
  match transports t.protocol with
  | none => false
  | some send =>
    match send t payload with
    | .ok _ => true
    | .error _ => false

/-- Concatenation of the `audio-chunk` payloads of an event stream, in
arrival order. -/
def chunkData : List (WEvent × List Nat) → List Nat
  | [] => []
  | ep :: rest => (if ep.1.ty = "audio-chunk" then ep.2 else []) ++ chunkData rest

/-- Sum of the `audio-chunk` payload lengths of an event stream. -/
def sumChunkBytes : List (WEvent × List Nat) → Nat
  | [] => 0
  | ep :: rest => (if ep.1.ty = "audio-chunk" then ep.2.length else 0) + sumChunkBytes rest

/-- The rate/channels/width parameters after folding the `audio-start`
events of a stream over initial defaults. -/
def finalParams (rate channels width : Int) :
    List (WEvent × List Nat) → Int × Int × Int
  | [] => (rate, channels, width)
  | ep :: rest =>
    if ep.1.ty = "audio-start" then
      let (r, c, w) := updStart ep.1 rate channels width
      finalParams r c w rest
    else finalParams rate channels width rest

/-- True when the input starts with a decimal digit. -/
def headIsDigit : List Nat → Bool
  | [] => false
  | c :: _ => isDigit c

/-! ## Concrete environments used as witnesses and counterexamples -/

/-- A minimal dispatcher environment (no synthesizer, no transports). -/
def emptyDispatcher : Dispatcher where
  transcribe := fun _ _ _ => .error "no transcriber"
  interpret := fun _ _ => .ok {}
  synthesizer := none
  transports := fun _ => none
  marshalResult := fun _ => .ok []

/-- A dispatcher whose result serialization fails (in Go: the interpreter
returned a `Command` whose `Raw` is invalid JSON, so `json.Marshal` of the
`DispatchResult` errors). -/
def dMarshalCx : Dispatcher where
  transcribe := fun _ _ _ => .error "unused"
  interpret := fun _ _ => .ok { commands := [{ action := "a", raw := "not json" }], responseText := "ok" }
  synthesizer := none
  transports := fun _ => none
  marshalResult := fun _ => .error "boom"

/-- A plain text message. -/
def msgMarshalCx : Message := { id := "m", text := "hi" }

/-- Three routing targets: an http target that succeeds, an http target
whose `Send` fails, and an mqtt target with no registered transport. -/
def msgRoute : Message :=
  { id := "m2", text := "hello",
    instruction := { targets := [⟨"ha", "e1", "http", ""⟩, ⟨"bad", "e2", "http", ""⟩,
                                 ⟨"mq", "e3", "mqtt", ""⟩] } }

/-- A dispatcher with one http transport that fails only for the target
named `"bad"`. -/
def dRoute : Dispatcher where
  transcribe := fun _ _ _ => .error "unused"
  interpret := fun _ _ => .ok { commands := [{ action := "turn_on" }], responseText := "done" }
  synthesizer := none
  transports := fun p =>
    if p = "http" then
      some (fun t _ => if t.serviceName = "bad" then .error "conn refused" else .ok ())
    else none
  marshalResult := fun _ => .ok [1]

/-- A dispatcher whose synthesizer always fails, as the piper client does
when the synthesis server answers with an `error` event. -/
def dSynthFail : Dispatcher where
  transcribe := fun _ _ _ => .error "unused"
  interpret := fun _ _ => .ok { commands := [], responseText := "resp" }
  synthesizer := some (fun _ _ => .error "piper error: boom")
  transports := fun p =>
    if p = "http" then some (fun _ _ => .ok ()) else none
  marshalResult := fun _ => .ok [2]

/-- A text+audio message with one http target. -/
def msgSynth : Message :=
  { id := "m3", text := "hello",
    instruction := { targets := [⟨"ha", "e1", "http", ""⟩],
                     responseMode := "text+audio" } }

/-- A piper synthesizer built from a config that overrides the `"en"`
voice with the empty string (a legal config value, which `New` merges
over the defaults) and sets only a fallback endpoint. -/
def piperCx : PiperSynthesizer :=
  piperNew { endpoint := "hostB:10200", voices := [("en", "")] }

/-- A piper synthesizer with an `en`-only endpoint map and no fallback
endpoint. -/
def piperFr : PiperSynthesizer :=
  piperNew { endpoints := [("en", "hostA:10200")] }

/-- A small well-formed synthesis answer stream: `audio-start` at
16000 Hz, one chunk, `audio-stop`. -/
def wavStream : List (WEvent × List Nat) :=
  [({ ty := "audio-start", data := .obj [("rate", .num 16000)] }, []),
   ({ ty := "audio-chunk" }, [1, 2, 3, 4]),
   ({ ty := "audio-stop" }, [])]

/-! ## Number and header lemmas -/

theorem natDec_ne_nil (n : Nat) : natDec n ≠ [] := by
  unfold natDec
  split
  · simp
  · next h =>
    simp only [ne_eq, List.reverse_eq_nil_iff, List.map_eq_nil_iff]
    exact Nat.digits_ne_nil_iff_ne_zero.mpr h

theorem natDec_digits (n : Nat) : ∀ c ∈ natDec n, isDigit c = true := by
  unfold natDec isDigit
  split
  · intro c hc
    simp at hc
    subst hc
    decide
  · intro c hc
    simp only [List.mem_reverse, List.mem_map] at hc
    obtain ⟨d, hd, rfl⟩ := hc
    have : d < 10 := Nat.digits_lt_base (by norm_num) hd
    simp only [Bool.and_eq_true, decide_eq_true_eq]
    omega

theorem digitsToNat_natDec (n : Nat) : digitsToNat (natDec n) = n := by
  unfold natDec
  split
  · next h => subst h; decide
  · unfold digitsToNat
    rw [List.foldl_reverse]
    have hfold : ∀ l : List Nat,
        (l.map (fun d => 48 + d)).foldr (fun x y => y * 10 + (x - 48)) 0 =
          Nat.ofDigits 10 l := by
      intro l
      induction l with
      | nil => simp [Nat.ofDigits]
      | cons d l ih =>
        simp only [List.map_cons, List.foldr_cons, ih, Nat.ofDigits_cons]
        omega
    rw [hfold, Nat.ofDigits_digits]

theorem atoi_natDec (n : Nat) : atoi (natDec n) = .ok (n : Int) := by
  obtain ⟨c, cs, hcons⟩ := List.exists_cons_of_ne_nil (natDec_ne_nil n)
  have hdig := natDec_digits n
  have hc : isDigit c = true := hdig c (by rw [hcons]; exact List.mem_cons_self c cs)
  have hc48 : 48 ≤ c ∧ c ≤ 57 := by
    simpa [isDigit] using hc
  unfold atoi
  rw [hcons]
  have h45 : ¬(c = 45) := by omega
  have h43 : ¬(c = 43) := by omega
  simp only [h45, if_false, h43]
  have hall : (c :: cs).all isDigit = true := by
    rw [← hcons]
    exact List.all_eq_true.mpr hdig
  simp only [ne_eq, reduceCtorEq, not_false_eq_true, hall, and_true, if_true, one_mul,
    true_and]
  rw [← hcons, digitsToNat_natDec]

theorem dropWhile_of_head_false {p : Nat → Bool} :
    ∀ l : List Nat, (∀ c ∈ l, p c = false) → l.dropWhile p = l := by
  intro l h
  cases l with
  | nil => rfl
  | cons c r => simp [List.dropWhile_cons, h c (by simp)]

theorem trimSpace_of_no_space (l : List Nat) (h : ∀ c ∈ l, isSpace c = false) :
    trimSpace l = l := by
  unfold trimSpace
  rw [dropWhile_of_head_false l h,
    dropWhile_of_head_false l.reverse (fun c hc => h c (List.mem_reverse.mp hc)),
    List.reverse_reverse]

theorem trimSpace_natDec (n : Nat) : trimSpace (natDec n) = natDec n := by
  refine trimSpace_of_no_space _ (fun c hc => ?_)
  have := natDec_digits n c hc
  simp only [isDigit, Bool.and_eq_true, decide_eq_true_eq] at this
  simp only [isSpace, Bool.or_eq_false_iff, decide_eq_false_iff_not, Bool.and_eq_false_iff]
  omega

theorem readHeaderLine_append (h rest : List Nat) (hnl : ∀ c ∈ h, c ≠ 10) :
    readHeaderLine (h ++ 10 :: rest) = .ok (h, rest) := by
  induction h with
  | nil => simp [readHeaderLine]
  | cons c h ih =>
    have hc : c ≠ 10 := hnl c (by simp)
    have ih2 := ih (fun x hx => hnl x (by simp [hx]))
    simp [readHeaderLine, hc, List.append_eq, ih2]

theorem splitFirstSpace_append (p q : List Nat) (hsp : ∀ c ∈ p, c ≠ 32) :
    splitFirstSpace (p ++ 32 :: q) = some (p, q) := by
  induction p with
  | nil => simp [splitFirstSpace]
  | cons c p ih =>
    have hc : c ≠ 32 := hsp c (by simp)
    have ih2 := ih (fun x hx => hsp x (by simp [hx]))
    simp [splitFirstSpace, hc, List.append_eq, ih2]

theorem takeDigits_append (ds rest : List Nat) (hd : ∀ c ∈ ds, isDigit c = true)
    (hr : headIsDigit rest = false) : takeDigits (ds ++ rest) = (ds, rest) := by
  induction ds with
  | nil =>
    cases rest with
    | nil => rfl
    | cons c r =>
      simp only [headIsDigit] at hr
      simp [takeDigits, hr]
  | cons c ds ih =>
    have ih2 := ih (fun x hx => hd x (by simp [hx]))
    simp [takeDigits, hd c (by simp), List.append_eq, ih2]

/-! ## Dispatch-engine helper lemmas -/

theorem routeTargets_spec (transports : String → Option (Target → List Nat → Except String Unit))
    (payload : List Nat) : ∀ ts : List Target,
    (routeTargets transports payload ts).1 =
      (ts.filter (delivered transports payload)).map Target.serviceName ∧
    (routeTargets transports payload ts).2.filter Call.isVisit = ts.map Call.visit := by
  intro ts
  induction ts with
  | nil => exact ⟨rfl, rfl⟩
  | cons t ts ih =>
    obtain ⟨ih1, ih2⟩ := ih
    cases htr : transports t.protocol with
    | none =>
      simp [routeTargets, htr, delivered, ih1, ih2, Call.isVisit]
    | some send =>
      cases hs : send t payload with
      | error e =>
        simp [routeTargets, htr, hs, delivered, ih1, ih2, Call.isVisit]
      | ok u =>
        simp [routeTargets, htr, hs, delivered, ih1, ih2, Call.isVisit]

theorem obtainTranscript_trace (d : Dispatcher) (msg : Message) :
    (obtainTranscript d msg).2 = [] ∨
      ∃ a, (obtainTranscript d msg).2 = [Call.transcribeCall a] := by
  unfold obtainTranscript
  by_cases h : msg.hasAudio
  · cases ht : d.transcribe msg.audio msg.contentType { prompt := msg.instruction.prompt } with
    | error e => right; exact ⟨msg.audio, by simp [h, ht]⟩
    | ok res => right; exact ⟨msg.audio, by simp [h, ht]⟩
  · by_cases h2 : msg.text = ""
    · left; simp [h, h2]
    · left; simp [h, h2]

theorem obtainTranscript_error_ne_empty (d : Dispatcher) (msg : Message) (e : String)
    (cs : List Call) (h : obtainTranscript d msg = (.error e, cs)) : e ≠ "" := by
  unfold obtainTranscript at h
  by_cases ha : msg.hasAudio
  · simp only [ha, if_true] at h
    cases ht : d.transcribe msg.audio msg.contentType { prompt := msg.instruction.prompt } with
    | error e2 =>
      rw [ht] at h
      simp only [Prod.mk.injEq, Except.error.injEq] at h
      intro hc
      have h1 := h.1
      rw [hc] at h1
      apply_fun String.length at h1
      simp [String.length_append] at h1
      exact absurd h1.1 (by decide)
    | ok res => rw [ht] at h; simp at h
  · simp only [ha, if_false, Bool.false_eq_true] at h
    by_cases h2 : msg.text = ""
    · simp only [h2, ne_eq, not_true_eq_false, if_false] at h
      simp only [Prod.mk.injEq, Except.error.injEq] at h
      intro hc
      have h1 := h.1
      rw [hc] at h1
      simp at h1
    · simp [h2] at h

theorem setResponseAudioBytes_fields (r : DispatchResult) (audio : List Nat) :
    (setResponseAudioBytes r audio).error = r.error ∧
    (setResponseAudioBytes r audio).commands = r.commands ∧
    (setResponseAudioBytes r audio).routedTo = r.routedTo ∧
    (setResponseAudioBytes r audio).responseText = r.responseText ∧
    (setResponseAudioBytes r audio).responseContentType = r.responseContentType ∧
    (setResponseAudioBytes r audio).messageID = r.messageID ∧
    (setResponseAudioBytes r audio).transcript = r.transcript ∧
    (setResponseAudioBytes r audio).language = r.language := by
  unfold setResponseAudioBytes
  split <;> simp

theorem synthStage_trace (d : Dispatcher) (rm dl : String) (ir : InterpretResult)
    (r : DispatchResult) :
    (synthStage d rm dl ir r).2 = [] ∨
      (synthStage d rm dl ir r).2 = [Call.synthesizeCall ir.responseText] := by
  unfold synthStage
  cases d.synthesizer with
  | none => left; rfl
  | some synth =>
    by_cases hc : wantAudio rm = true ∧ ir.responseText ≠ ""
    · cases hs : synth ir.responseText { language := if dl = "" then "en" else dl } with
      | error e => right; simp [hc, hs]
      | ok sr => right; simp [hc, hs]
    · left; simp [hc]

theorem synthStage_fields (d : Dispatcher) (rm dl : String) (ir : InterpretResult)
    (r : DispatchResult) :
    (synthStage d rm dl ir r).1.error = r.error ∧
    (synthStage d rm dl ir r).1.commands = r.commands ∧
    (synthStage d rm dl ir r).1.routedTo = r.routedTo ∧
    (synthStage d rm dl ir r).1.responseText = r.responseText := by
  unfold synthStage
  cases d.synthesizer with
  | none => simp
  | some synth =>
    by_cases hc : wantAudio rm = true ∧ ir.responseText ≠ ""
    · cases hs : synth ir.responseText { language := if dl = "" then "en" else dl } with
      | error e => simp [hc, hs]
      | ok sr =>
        have hf := setResponseAudioBytes_fields r sr.audio
        simp [hc, hs, hf.1, hf.2.1, hf.2.2.1, hf.2.2.2.1]
    · simp [hc]

theorem synthStage_failure (d : Dispatcher) (rm dl : String) (ir : InterpretResult)
    (r : DispatchResult) (synth : String → SynthesizeOpts → Except String SynthesizeResult)
    (err : String)
    (hsy : d.synthesizer = some synth)
    (hwa : wantAudio rm = true) (hrt : ir.responseText ≠ "")
    (hsf : synth ir.responseText { language := if dl = "" then "en" else dl } = .error err) :
    synthStage d rm dl ir r = (r, [Call.synthesizeCall ir.responseText]) := by
  unfold synthStage
  rw [hsy]
  simp [hwa, hrt, hsf]

/-! ## Claim theorems -/

/-- C2: for every dispatcher environment and every Message with empty
audio and empty text, `Handle` returns `Error = "message has no audio and
no text"` with empty Commands and empty RoutedTo (and makes no
collaborator calls at all). -/
theorem handle_no_input (d : Dispatcher) (msg : Message)
    (ha : msg.audio = []) (ht : msg.text = "") :
    (handle d msg).1.error = "message has no audio and no text" ∧
    (handle d msg).1.commands = [] ∧
    (handle d msg).1.routedTo = [] ∧
    (handle d msg).2 = [] := by
  unfold handle obtainTranscript
  simp [Message.hasAudio, ha, ht]

/-- Witness for C2 at the empty message and a concrete dispatcher. -/
theorem handle_no_input_witness :
    (handle emptyDispatcher {}).1.error = "message has no audio and no text" ∧
    (handle emptyDispatcher {}).1.commands = [] ∧
    (handle emptyDispatcher {}).1.routedTo = [] ∧
    (handle emptyDispatcher {}).2 = [] :=
  handle_no_input emptyDispatcher {} rfl rfl

/-- C9: response-mode resolution is a pure function of the requested mode
and synthesizer presence: a recognized mode is returned unchanged, any
other mode defaults to `text+audio` with a synthesizer and `text` without,
equal inputs give equal results, and the result is always one of the four
recognized values. -/
theorem resolveResponseMode_pure (p : Bool) (mode : String) :
    resolveResponseMode p mode = resolveResponseMode p mode ∧
    resolveResponseMode p mode ∈ [responseModeNone, responseModeText,
      responseModeAudio, responseModeTextAudio] ∧
    ((mode = responseModeNone ∨ mode = responseModeText ∨ mode = responseModeAudio ∨
        mode = responseModeTextAudio) → resolveResponseMode p mode = mode) ∧
    (¬(mode = responseModeNone ∨ mode = responseModeText ∨ mode = responseModeAudio ∨
        mode = responseModeTextAudio) →
      resolveResponseMode p mode = if p then responseModeTextAudio else responseModeText) := by
  refine ⟨rfl, ?_, ?_, ?_⟩
  · unfold resolveResponseMode
    split
    · next h => simp [h]
    · split <;> simp
  · intro h
    unfold resolveResponseMode
    simp [h]
  · intro h
    unfold resolveResponseMode
    simp [h]

/-- Witness for C9: an unrecognized mode defaults by synthesizer presence;
a recognized mode is kept. -/
theorem resolveResponseMode_pure_witness :
    resolveResponseMode true "gibberish" = "text+audio" ∧
    resolveResponseMode false "gibberish" = "text" ∧
    resolveResponseMode false "audio" = "audio" := by
  refine ⟨?_, ?_, ?_⟩
  · have h := (resolveResponseMode_pure true "gibberish").2.2.2 (by decide)
    simpa [responseModeTextAudio] using h
  · have h := (resolveResponseMode_pure false "gibberish").2.2.2 (by decide)
    simpa [responseModeText] using h
  · have h := (resolveResponseMode_pure false "audio").2.2.1
      (Or.inr (Or.inr (Or.inl rfl)))
    simpa using h

/-- C10: synthesizing the empty string fails immediately with the
`empty text for synthesis` error, for any synthesizer configuration, any
options and any server behaviour, without attempting a connection. -/
theorem piperSynthesize_empty_text (s : PiperSynthesizer) (opts : SynthesizeOpts)
    (events : List (WEvent × List Nat)) :
    piperSynthesize s "" opts events = (.error "empty text for synthesis", false) := by
  simp [piperSynthesize]

/-- C7 counterexample: with a legal configuration that overrides the
`"en"` voice to the empty string, a request for an unknown language leaves
the voice unresolved (empty), yet `Synthesize` raises no configuration
error and proceeds to connect (the failure below is the later protocol
read failure, after a connection attempt). -/
theorem piper_voice_unresolved_no_config_error :
    resolveVoice piperCx { language := "xx" } = "" ∧
    (piperSynthesize piperCx "hi" { language := "xx" } []).2 = true ∧
    (piperSynthesize piperCx "hi" { language := "xx" } []).1 =
      .error "reading piper event: EOF" :=
  ⟨rfl, rfl, rfl⟩

/-- C7 amended: the voice resolves as explicit override, else per-language
entry, else the `"en"` entry, and is then used as-is (an unresolved voice
raises no error); the endpoint resolves as per-language entry else
fallback, and only an unresolved endpoint yields the configuration error,
with no connection attempted; in particular an `en`-only endpoint map with
no fallback fails for language `fr`. -/
theorem piperSynthesize_endpoint_resolution (s : PiperSynthesizer) (text : String)
    (opts : SynthesizeOpts) (events : List (WEvent × List Nat)) :
    (opts.voice ≠ "" → resolveVoice s opts = opts.voice) ∧
    (opts.voice = "" → mapGet s.voices opts.language ≠ "" →
      resolveVoice s opts = mapGet s.voices opts.language) ∧
    (opts.voice = "" → mapGet s.voices opts.language = "" →
      resolveVoice s opts = mapGet s.voices "en") ∧
    (mapGet s.endpoints opts.language ≠ "" →
      resolveEndpoint s opts = mapGet s.endpoints opts.language) ∧
    (mapGet s.endpoints opts.language = "" → resolveEndpoint s opts = s.endpoint) ∧
    (text ≠ "" → resolveEndpoint s opts = "" →
      piperSynthesize s text opts events =
        (.error ("no piper endpoint configured for language \"" ++ opts.language ++ "\""),
         false)) ∧
    piperSynthesize piperFr "hello" { language := "fr" } [] =
      (.error "no piper endpoint configured for language \"fr\"", false) := by
  refine ⟨?_, ?_, ?_, ?_, ?_, ?_, rfl⟩
  · intro h; simp [resolveVoice, h]
  · intro h1 h2; simp [resolveVoice, h1, h2]
  · intro h1 h2; simp [resolveVoice, h1, h2]
  · intro h; simp [resolveEndpoint, h]
  · intro h; simp [resolveEndpoint, h]
  · intro ht he; simp [piperSynthesize, ht, he]

/-- Witness for C7 amended: the fr-endpoint example, plus a successful
per-language voice resolution. -/
theorem piperSynthesize_endpoint_resolution_witness :
    piperSynthesize piperFr "hello" { language := "fr" } [] =
      (.error "no piper endpoint configured for language \"fr\"", false) ∧
    resolveVoice piperFr { language := "fr" } = "fr_FR-siwis-medium" := by
  have h := piperSynthesize_endpoint_resolution piperFr "hello"
    { language := "fr" } []
  refine ⟨h.2.2.2.2.2.2, ?_⟩
  have h2 := h.2.1 rfl (by decide)
  rw [h2]
  rfl
/-! ## Routing-stage lemmas and C3 -/

theorem marshalAndRoute_error (d : Dispatcher) (msg : Message) (r4 : DispatchResult)
    (e : String) (hm : d.marshalResult r4 = .error e) :
    marshalAndRoute d msg r4 =
      ({ r4 with error := "marshalling result: " ++ e }, [Call.marshalCall]) := by
  unfold marshalAndRoute
  rw [hm]

theorem marshalAndRoute_ok (d : Dispatcher) (msg : Message) (r4 : DispatchResult)
    (payload : List Nat) (hm : d.marshalResult r4 = .ok payload) :
    marshalAndRoute d msg r4 =
      ({ r4 with routedTo := (routeTargets d.transports payload msg.instruction.targets).1 },
       Call.marshalCall :: (routeTargets d.transports payload msg.instruction.targets).2) := by
  unfold marshalAndRoute
  rw [hm]

theorem interpretOn_routing (d : Dispatcher) (msg : Message) (respMode : String)
    (r1 : DispatchResult) (transcript detectedLang : String)
    (h : (interpretOn d msg respMode r1 transcript detectedLang).1.error = "") :
    ∃ payload,
      (interpretOn d msg respMode r1 transcript detectedLang).2.filter Call.isVisit =
        msg.instruction.targets.map Call.visit ∧
      (interpretOn d msg respMode r1 transcript detectedLang).1.routedTo =
        (msg.instruction.targets.filter (delivered d.transports payload)).map
          Target.serviceName := by
  unfold interpretOn at h ⊢
  cases hint : d.interpret transcript msg.instruction with
  | error e =>
    exfalso
    rw [hint] at h
    dsimp only at h
    apply_fun String.length at h
    simp [String.length_append] at h
    exact absurd h.1 (by decide)
  | ok ir =>
    rw [hint] at h
    dsimp only at h ⊢
    rcases hss : synthStage d respMode detectedLang ir (populateText respMode ir r1)
      with ⟨r4, cs4⟩
    rw [hss] at h
    dsimp only at h ⊢
    cases hm : d.marshalResult r4 with
    | error e =>
      exfalso
      rw [marshalAndRoute_error d msg r4 e hm] at h
      dsimp only at h
      apply_fun String.length at h
      simp [String.length_append] at h
      exact absurd h.1 (by decide)
    | ok payload =>
      rw [marshalAndRoute_ok d msg r4 payload hm]
      refine ⟨payload, ?_, ?_⟩
      · have hcs4 : cs4.filter Call.isVisit = [] := by
          have ht4 := synthStage_trace d respMode detectedLang ir (populateText respMode ir r1)
          rw [hss] at ht4
          rcases ht4 with h4 | h4 <;> dsimp only at h4 <;> subst h4 <;> simp [Call.isVisit]
        have hrt := (routeTargets_spec d.transports payload msg.instruction.targets).2
        simp [List.filter_append, Call.isVisit, hcs4, hrt]
      · simp [(routeTargets_spec d.transports payload msg.instruction.targets).1]

/-- C3: whenever `Handle` reaches the routing stage (equivalently, the
returned Error is empty: every earlier abort leaves a non-empty Error),
it visits the instruction's targets exactly once each in list order, and
RoutedTo is exactly the service names of the targets whose transport is
registered and whose Send succeeded, in the same relative order;
unregistered protocols and failed Sends are skipped without aborting. -/
theorem handle_routing_order (d : Dispatcher) (msg : Message)
    (h : (handle d msg).1.error = "") :
    ∃ payload,
      (handle d msg).2.filter Call.isVisit = msg.instruction.targets.map Call.visit ∧
      (handle d msg).1.routedTo =
        (msg.instruction.targets.filter (delivered d.transports payload)).map
          Target.serviceName := by
  rcases hot : obtainTranscript d msg with ⟨res, cs0⟩
  cases res with
  | error e =>
    exfalso
    have he : (handle d msg).1.error = e := by
      unfold handle
      rw [hot]
    rw [he] at h
    exact obtainTranscript_error_ne_empty d msg e cs0 hot h
  | ok tl =>
    obtain ⟨transcript, detectedLang⟩ := tl
    have hh : handle d msg =
        ((interpretOn d msg
            (resolveResponseMode d.synthesizer.isSome msg.instruction.responseMode)
            { messageID := msg.id, transcript := transcript, language := detectedLang }
            transcript detectedLang).1,
         cs0 ++ (interpretOn d msg
            (resolveResponseMode d.synthesizer.isSome msg.instruction.responseMode)
            { messageID := msg.id, transcript := transcript, language := detectedLang }
            transcript detectedLang).2) := by
      unfold handle
      rw [hot]
    rw [hh] at h ⊢
    dsimp only at h ⊢
    obtain ⟨payload, h1, h2⟩ := interpretOn_routing d msg _ _ transcript detectedLang h
    refine ⟨payload, ?_, h2⟩
    have hcs0 : cs0.filter Call.isVisit = [] := by
      have ht0 := obtainTranscript_trace d msg
      rw [hot] at ht0
      rcases ht0 with h0 | ⟨a, h0⟩ <;> dsimp only at h0 <;> subst h0 <;> simp [Call.isVisit]
    simp [List.filter_append, hcs0, h1]

/-- Witness for C3 at a dispatcher with one succeeding http target, one
failing http target and one unregistered mqtt target. -/
theorem handle_routing_order_witness :
    (handle dRoute msgRoute).1.error = "" ∧
    (∃ payload,
      (handle dRoute msgRoute).2.filter Call.isVisit =
        msgRoute.instruction.targets.map Call.visit ∧
      (handle dRoute msgRoute).1.routedTo =
        (msgRoute.instruction.targets.filter (delivered dRoute.transports payload)).map
          Target.serviceName) ∧
    (handle dRoute msgRoute).1.routedTo = ["ha"] :=
  ⟨rfl, handle_routing_order dRoute msgRoute rfl, rfl⟩
/-! ## Error-source characterization and C1 -/

theorem populateText_fields (respMode : String) (ir : InterpretResult) (r : DispatchResult) :
    (populateText respMode ir r).error = r.error ∧
    (populateText respMode ir r).routedTo = r.routedTo ∧
    (populateText respMode ir r).commands = ir.commands ∧
    (populateText respMode ir r).responseAudio = r.responseAudio ∧
    (populateText respMode ir r).responseContentType = r.responseContentType := by
  unfold populateText
  split <;> simp

theorem obtainTranscript_error_cases (d : Dispatcher) (msg : Message) (e : String)
    (cs : List Call) (h : obtainTranscript d msg = (.error e, cs)) :
    (e = "message has no audio and no text" ∧ cs = []) ∨
    (∃ e2, e = "transcription failed: " ++ e2 ∧ ∃ a, cs = [Call.transcribeCall a]) := by
  unfold obtainTranscript at h
  by_cases ha : msg.hasAudio
  · simp only [ha, if_true] at h
    cases ht : d.transcribe msg.audio msg.contentType { prompt := msg.instruction.prompt } with
    | error e2 =>
      rw [ht] at h
      simp only [Prod.mk.injEq, Except.error.injEq] at h
      right
      exact ⟨e2, h.1.symm, msg.audio, h.2.symm⟩
    | ok res => rw [ht] at h; simp at h
  · simp only [ha, if_false, Bool.false_eq_true] at h
    by_cases h2 : msg.text = ""
    · simp only [h2, ne_eq, not_true_eq_false, if_false] at h
      simp only [Prod.mk.injEq, Except.error.injEq] at h
      left
      exact ⟨h.1.symm, h.2.symm⟩
    · simp [h2] at h

/-- C1 amended: `Handle` always returns a DispatchResult; its Error is
empty or set by exactly one of the four terminal failures — missing
input, failed transcription, failed interpretation, or failed result
serialization — and in each failure case no later stage has run
(witnessed by the call trace) and nothing was routed.  Synthesis failures
and per-target delivery failures never set Error (an error string is
always one of the four forms above). -/
theorem handle_error_sources (d : Dispatcher) (msg : Message) :
    (handle d msg).1.error = "" ∨
    ((handle d msg).1.error = "message has no audio and no text" ∧
      (handle d msg).2 = [] ∧ (handle d msg).1.commands = [] ∧
      (handle d msg).1.routedTo = []) ∨
    ((∃ e, (handle d msg).1.error = "transcription failed: " ++ e) ∧
      (∃ a, (handle d msg).2 = [Call.transcribeCall a]) ∧
      (handle d msg).1.routedTo = []) ∨
    ((∃ e, (handle d msg).1.error = "interpretation failed: " ++ e) ∧
      (handle d msg).2.all (fun c => !(c.isSynthesize || c.isSendCall || c.isVisit)) = true ∧
      (handle d msg).1.routedTo = []) ∨
    ((∃ e, (handle d msg).1.error = "marshalling result: " ++ e) ∧
      (handle d msg).2.all (fun c => !(c.isSendCall || c.isVisit)) = true ∧
      (handle d msg).1.routedTo = []) := by
  rcases hot : obtainTranscript d msg with ⟨res, cs0⟩
  cases res with
  | error e =>
    have hh : handle d msg = ({ messageID := msg.id, error := e }, cs0) := by
      unfold handle
      rw [hot]
    rw [hh]
    rcases obtainTranscript_error_cases d msg e cs0 hot with ⟨he, hcs⟩ | ⟨e2, he, a, hcs⟩
    · right; left
      exact ⟨by simp [he], by simp [hcs], rfl, rfl⟩
    · right; right; left
      exact ⟨⟨e2, by simp [he]⟩, ⟨a, by simp [hcs]⟩, rfl⟩
  | ok tl =>
    obtain ⟨transcript, detectedLang⟩ := tl
    have hcs0 : cs0 = [] ∨ ∃ a, cs0 = [Call.transcribeCall a] := by
      have ht0 := obtainTranscript_trace d msg
      rw [hot] at ht0
      exact ht0
    have hh : handle d msg =
        ((interpretOn d msg
            (resolveResponseMode d.synthesizer.isSome msg.instruction.responseMode)
            { messageID := msg.id, transcript := transcript, language := detectedLang }
            transcript detectedLang).1,
         cs0 ++ (interpretOn d msg
            (resolveResponseMode d.synthesizer.isSome msg.instruction.responseMode)
            { messageID := msg.id, transcript := transcript, language := detectedLang }
            transcript detectedLang).2) := by
      unfold handle
      rw [hot]
    rw [hh]
    dsimp only
    set respMode := resolveResponseMode d.synthesizer.isSome msg.instruction.responseMode
    set r1 : DispatchResult :=
      { messageID := msg.id, transcript := transcript, language := detectedLang } with hr1
    unfold interpretOn
    cases hint : d.interpret transcript msg.instruction with
    | error e =>
      dsimp only
      right; right; right; left
      refine ⟨⟨e, rfl⟩, ?_, rfl⟩
      rcases hcs0 with h0 | ⟨a, h0⟩ <;> subst h0 <;>
        simp [Call.isSynthesize, Call.isSendCall, Call.isVisit]
    | ok ir =>
      dsimp only
      rcases hss : synthStage d respMode detectedLang ir (populateText respMode ir r1)
        with ⟨r4, cs4⟩
      dsimp only
      have hr4 : r4.error = "" ∧ r4.routedTo = [] := by
        have hf := synthStage_fields d respMode detectedLang ir (populateText respMode ir r1)
        rw [hss] at hf
        have hp := populateText_fields respMode ir r1
        constructor
        · rw [hf.1, hp.1]
        · rw [hf.2.2.1, hp.2.1]
      have hcs4 : cs4 = [] ∨ cs4 = [Call.synthesizeCall ir.responseText] := by
        have ht4 := synthStage_trace d respMode detectedLang ir (populateText respMode ir r1)
        rw [hss] at ht4
        exact ht4
      cases hm : d.marshalResult r4 with
      | error e =>
        rw [marshalAndRoute_error d msg r4 e hm]
        dsimp only
        right; right; right; right
        refine ⟨⟨e, rfl⟩, ?_, by simp [hr4.2]⟩
        rcases hcs0 with h0 | ⟨a, h0⟩ <;> rcases hcs4 with h4 | h4 <;> subst h0 <;> subst h4 <;>
          simp [Call.isSendCall, Call.isVisit, Call.isSynthesize]
      | ok payload =>
        rw [marshalAndRoute_ok d msg r4 payload hm]
        dsimp only
        left
        exact hr4.1

/-- C1 counterexample: a run in which there is input, transcription is
not needed and interpretation succeeds, yet Error is set — by the result
serialization failing before routing (a fourth error source beyond the
three the claim lists). -/
theorem handle_marshal_error_sets_error :
    msgMarshalCx.audio = [] ∧ msgMarshalCx.text = "hi" ∧
    dMarshalCx.interpret "hi" msgMarshalCx.instruction =
      .ok { commands := [{ action := "a", raw := "not json" }], responseText := "ok" } ∧
    (handle dMarshalCx msgMarshalCx).1.error = "marshalling result: boom" ∧
    (handle dMarshalCx msgMarshalCx).1.routedTo = [] :=
  ⟨rfl, rfl, rfl, rfl, rfl⟩
/-! ## Synthesis-failure containment (C4) -/

theorem populateText_responseText (respMode : String) (ir : InterpretResult)
    (r : DispatchResult) :
    (populateText respMode ir r).responseText =
      if wantText respMode then ir.responseText else r.responseText := by
  unfold populateText
  split <;> simp

/-- C4: when the synthesizer call made by `Handle` fails (as the piper
client does when the server answers with an `error` event), the returned
DispatchResult has empty ResponseAudio and ResponseContentType, its
ResponseText still carries the interpreter's response text when the
resolved mode wants text, the synthesis failure does not set Error, and
routing still visits every target (serialization itself succeeding). -/
theorem handle_synthesis_failure_contained (d : Dispatcher) (msg : Message)
    (synth : String → SynthesizeOpts → Except String SynthesizeResult)
    (transcript detectedLang : String) (cs0 : List Call) (ir : InterpretResult)
    (err : String)
    (hsy : d.synthesizer = some synth)
    (hot : obtainTranscript d msg = (.ok (transcript, detectedLang), cs0))
    (hint : d.interpret transcript msg.instruction = .ok ir)
    (hrt : ir.responseText ≠ "")
    (hwa : wantAudio (resolveResponseMode d.synthesizer.isSome
      msg.instruction.responseMode) = true)
    (hsf : synth ir.responseText
      { language := if detectedLang = "" then "en" else detectedLang } = .error err)
    (hm : ∀ r, ∃ p, d.marshalResult r = .ok p) :
    (handle d msg).1.responseAudio = "" ∧
    (handle d msg).1.responseContentType = "" ∧
    (wantText (resolveResponseMode d.synthesizer.isSome
        msg.instruction.responseMode) = true →
      (handle d msg).1.responseText = ir.responseText) ∧
    (handle d msg).1.error = "" ∧
    (handle d msg).2.filter Call.isVisit = msg.instruction.targets.map Call.visit := by
  have hh : handle d msg =
      ((interpretOn d msg
          (resolveResponseMode d.synthesizer.isSome msg.instruction.responseMode)
          { messageID := msg.id, transcript := transcript, language := detectedLang }
          transcript detectedLang).1,
       cs0 ++ (interpretOn d msg
          (resolveResponseMode d.synthesizer.isSome msg.instruction.responseMode)
          { messageID := msg.id, transcript := transcript, language := detectedLang }
          transcript detectedLang).2) := by
    unfold handle
    rw [hot]
  rw [hh]
  dsimp only
  set respMode := resolveResponseMode d.synthesizer.isSome msg.instruction.responseMode
  set r1 : DispatchResult :=
    { messageID := msg.id, transcript := transcript, language := detectedLang } with hr1
  unfold interpretOn
  rw [hint]
  dsimp only
  rw [synthStage_failure d respMode detectedLang ir (populateText respMode ir r1)
    synth err hsy hwa hrt hsf]
  dsimp only
  obtain ⟨payload, hp⟩ := hm (populateText respMode ir r1)
  rw [marshalAndRoute_ok d msg (populateText respMode ir r1) payload hp]
  dsimp only
  have hpf := populateText_fields respMode ir r1
  refine ⟨?_, ?_, ?_, ?_, ?_⟩
  · rw [hpf.2.2.2.1]
  · rw [hpf.2.2.2.2]
  · intro hw
    rw [populateText_responseText, if_pos hw]
  · rw [hpf.1]
  · have hcs0 : cs0.filter Call.isVisit = [] := by
      have ht0 := obtainTranscript_trace d msg
      rw [hot] at ht0
      rcases ht0 with h0 | ⟨a, h0⟩ <;> dsimp only at h0 <;> subst h0 <;> simp [Call.isVisit]
    have hrt2 := (routeTargets_spec d.transports payload msg.instruction.targets).2
    simp [List.filter_append, hcs0, Call.isVisit, hrt2]

/-- Witness for C4 at a dispatcher whose synthesizer fails with a piper
server error. -/
theorem handle_synthesis_failure_contained_witness :
    (handle dSynthFail msgSynth).1.responseAudio = "" ∧
    (handle dSynthFail msgSynth).1.responseContentType = "" ∧
    (handle dSynthFail msgSynth).1.responseText = "resp" ∧
    (handle dSynthFail msgSynth).1.error = "" ∧
    (handle dSynthFail msgSynth).1.routedTo = ["ha"] := by
  have h := handle_synthesis_failure_contained dSynthFail msgSynth
    (fun _ _ => .error "piper error: boom") "hello" "" []
    { commands := [], responseText := "resp" } "piper error: boom"
    rfl rfl rfl (by decide) rfl rfl (fun r => ⟨[2], rfl⟩)
  exact ⟨h.1, h.2.1, h.2.2.1 rfl, h.2.2.2.1, rfl⟩
/-! ## Synthesis event loop and WAV structure (C5) -/

theorem chunkData_length : ∀ l : List (WEvent × List Nat),
    (chunkData l).length = sumChunkBytes l := by
  intro l
  induction l with
  | nil => rfl
  | cons ep rest ih =>
    simp only [chunkData, sumChunkBytes, List.length_append, ih]
    split <;> simp

theorem synthLoop_clean (stopEvt : WEvent) (pl : List Nat)
    (rest : List (WEvent × List Nat)) (hstop : stopEvt.ty = "audio-stop") :
    ∀ (pre : List (WEvent × List Nat)) (rate channels width : Int) (pcm : List Nat),
      (∀ ep ∈ pre, ep.1.ty ≠ "audio-stop" ∧ ep.1.ty ≠ "error") →
      synthLoop rate channels width pcm (pre ++ (stopEvt, pl) :: rest) =
        .ok { audio := pcmToWAV (pcm ++ chunkData pre)
                (finalParams rate channels width pre).1
                (finalParams rate channels width pre).2.1
                (finalParams rate channels width pre).2.2,
              contentType := "audio/wav",
              sampleRate := (finalParams rate channels width pre).1,
              channels := (finalParams rate channels width pre).2.1 } := by
  intro pre
  induction pre with
  | nil =>
    intro rate channels width pcm _
    simp [synthLoop, hstop, finalParams, chunkData]
  | cons ep pre ih =>
    rcases ep with ⟨evt, payload⟩
    intro rate channels width pcm hpre
    obtain ⟨h1, h2⟩ := hpre (evt, payload) (by simp)
    have hpre2 : ∀ e ∈ pre, e.1.ty ≠ "audio-stop" ∧ e.1.ty ≠ "error" :=
      fun e he => hpre e (by simp [he])
    dsimp only at h1 h2
    by_cases hs : evt.ty = "audio-start"
    · have ih2 := ih ((jnum evt.data "rate").getD rate)
        ((jnum evt.data "channels").getD channels)
        ((jnum evt.data "width").getD width) pcm hpre2
      simp [synthLoop, hs, chunkData, finalParams, updStart, List.append_eq, ih2]
    · by_cases hc : evt.ty = "audio-chunk"
      · have ih2 := ih rate channels width (pcm ++ payload) hpre2
        simp [synthLoop, hs, hc, chunkData, finalParams, List.append_eq, ih2,
          List.append_assoc]
      · have ih2 := ih rate channels width pcm hpre2
        simp [synthLoop, hs, hc, h1, h2, chunkData, finalParams, List.append_eq, ih2]

/-- C5: for a well-formed answer stream (no premature stop or error)
ending in `audio-stop`, `Synthesize` returns a WAV byte sequence whose
data subchunk is exactly the chunk payloads in arrival order, whose data
length is their summed length, and whose 44-byte header carries: RIFF
size = total minus 8, PCM format tag 1, the channel count, rate and
sample width folded from `audio-start` over the defaults 22050/1/2,
byte rate = rate·channels·width, block align = channels·width, and bits
per sample = width·8. -/
theorem piperSynthesize_wav (s : PiperSynthesizer) (text : String)
    (opts : SynthesizeOpts) (pre : List (WEvent × List Nat)) (stopEvt : WEvent)
    (pl : List Nat) (rest : List (WEvent × List Nat))
    (ht : text ≠ "") (he : resolveEndpoint s opts ≠ "")
    (hpre : ∀ ep ∈ pre, ep.1.ty ≠ "audio-stop" ∧ ep.1.ty ≠ "error")
    (hstop : stopEvt.ty = "audio-stop") :
    piperSynthesize s text opts (pre ++ (stopEvt, pl) :: rest) =
      (.ok { audio := ascii "RIFF" ++ le32 (36 + ((chunkData pre).length : Int)) ++
               ascii "WAVE" ++ ascii "fmt " ++ le32 16 ++ le16 1 ++
               le16 (finalParams 22050 1 2 pre).2.1 ++
               le32 (finalParams 22050 1 2 pre).1 ++
               le32 ((finalParams 22050 1 2 pre).1 * (finalParams 22050 1 2 pre).2.1 *
                 (finalParams 22050 1 2 pre).2.2) ++
               le16 ((finalParams 22050 1 2 pre).2.1 * (finalParams 22050 1 2 pre).2.2) ++
               le16 ((finalParams 22050 1 2 pre).2.2 * 8) ++
               ascii "data" ++ le32 ((chunkData pre).length : Int) ++ chunkData pre,
             contentType := "audio/wav",
             sampleRate := (finalParams 22050 1 2 pre).1,
             channels := (finalParams 22050 1 2 pre).2.1 }, true) ∧
    (chunkData pre).length = sumChunkBytes pre := by
  constructor
  · unfold piperSynthesize
    simp only [ht, if_false, he]
    rw [synthLoop_clean stopEvt pl rest hstop pre 22050 1 2 [] hpre]
    simp [pcmToWAV]
  · exact chunkData_length pre

/-- Witness for C5: a concrete stream (rate 16000 from `audio-start`, one
4-byte chunk) produces the exact 48-byte WAV. -/
theorem piperSynthesize_wav_witness :
    piperSynthesize (piperNew { endpoint := "h:1" }) "hi" { language := "en" } wavStream =
      (.ok { audio := [82, 73, 70, 70, 40, 0, 0, 0, 87, 65, 86, 69, 102, 109, 116, 32,
               16, 0, 0, 0, 1, 0, 1, 0, 128, 62, 0, 0, 0, 125, 0, 0, 2, 0, 16, 0,
               100, 97, 116, 97, 4, 0, 0, 0, 1, 2, 3, 4],
             contentType := "audio/wav", sampleRate := 16000, channels := 1 }, true) := by
  have h := (piperSynthesize_wav (piperNew { endpoint := "h:1" }) "hi" { language := "en" }
    [({ ty := "audio-start", data := .obj [("rate", .num 16000)] }, []),
     ({ ty := "audio-chunk" }, [1, 2, 3, 4])]
    { ty := "audio-stop" } [] [] (by decide) (by decide) (by decide) rfl).1
  rw [show wavStream =
      [({ ty := "audio-start", data := .obj [("rate", .num 16000)] }, []),
       ({ ty := "audio-chunk" }, [1, 2, 3, 4])] ++
        [(({ ty := "audio-stop" } : WEvent), ([] : List Nat))] from rfl]
  rw [h]
  rfl
/-! ## readEvent failure surfacing (C6) -/

/-- C6: the listed failure modes — header hitting end of input, a header
without a space, a non-numeric length, a short read before json_length,
and a JSON decode failure — are all surfaced as returned protocol errors,
and a well-formed event decodes; BUT a header declaring a negative
json_length makes the Go code panic (`make([]byte, jsonLen+1)` with
`jsonLen ≤ -2`, or the `jsonBuf[:jsonLen]` slice with `jsonLen = -1`)
instead of returning an error, contradicting the claim that readEvent
never panics. -/
theorem readEvent_negative_length_panics :
    readEvent (ascii "-1 0\n") = .panicked "slice bounds out of range" ∧
    readEvent (ascii "-5 0\nx") = .panicked "makeslice: len out of range" ∧
    readEvent (ascii "nonewline") = .protoError "reading header: EOF" ∧
    readEvent (ascii "nospace\n") = .protoError "invalid wyoming header" ∧
    readEvent (ascii "ab 0\nx") = .protoError "parsing json_length: invalid syntax" ∧
    readEvent (ascii "2 0\n") = .protoError "reading json: unexpected EOF" ∧
    readEvent (ascii "2 0\n\x7b]\nx") =
      .protoError "unmarshalling event: expected object key" ∧
    readEvent (ascii "2 0\n{}\n") = .ok { ty := "", data := .obj [], payloadLength := 0 } [] [] := by
  refine ⟨rfl, rfl, rfl, rfl, rfl, rfl, rfl, ?_⟩
  rfl

/-! ## JSON encode/decode round trip (C8) -/

theorem hexVal_hexDigitChar (n : Nat) (h : n < 16) : hexVal (hexDigitChar n) = some n := by
  unfold hexVal hexDigitChar
  split_ifs <;> first | (exfalso; omega) | (congr 1; omega)

theorem parseStringBody_escape :
    ∀ (cs : List Char) (acc : List Char) (rest : List Nat),
      parseStringBody (escapeChars cs ++ 34 :: rest) acc =
        .ok (String.mk (acc.reverse ++ cs), rest) := by
  intro cs
  induction cs with
  | nil =>
    intro acc rest
    rw [show escapeChars [] ++ 34 :: rest = 34 :: rest from rfl, parseStringBody.eq_def]
    simp
  | cons c cs ih =>
    intro acc rest
    have hval : Char.ofNat c.toNat = c := Char.ofNat_toNat c
    have hdm : Char.ofNat (c.toNat / 16 * 16 + c.toNat % 16) = c := by
      rw [show c.toNat / 16 * 16 + c.toNat % 16 = c.toNat from by omega, hval]
    unfold escapeChars escapeChar
    by_cases h1 : c.toNat = 34
    · have hc : c = '"' := by rw [← hval, h1]
      rw [if_pos h1]
      rw [List.cons_append, List.cons_append, parseStringBody.eq_def]
      simp [ih, hc]
    · by_cases h2 : c.toNat = 92
      · have hc : c = '\\' := by rw [← hval, h2]
        rw [if_neg h1, if_pos h2]
        rw [List.cons_append, List.cons_append, parseStringBody.eq_def]
        simp [ih, hc]
      · by_cases h3 : c.toNat = 10
        · have hc : c = '\n' := by rw [← hval, h3]
          rw [if_neg h1, if_neg h2, if_pos h3]
          rw [List.cons_append, List.cons_append, parseStringBody.eq_def]
          simp [ih, hc]
        · by_cases h4 : c.toNat = 13
          · have hc : c = '\r' := by rw [← hval, h4]
            rw [if_neg h1, if_neg h2, if_neg h3, if_pos h4]
            rw [List.cons_append, List.cons_append, parseStringBody.eq_def]
            simp [ih, hc]
          · by_cases h5 : c.toNat = 9
            · have hc : c = '\t' := by rw [← hval, h5]
              rw [if_neg h1, if_neg h2, if_neg h3, if_neg h4, if_pos h5]
              rw [List.cons_append, List.cons_append, parseStringBody.eq_def]
              simp [ih, hc]
            · by_cases h6 : c.toNat < 32
              · have hd1 : hexVal (hexDigitChar (c.toNat / 16)) = some (c.toNat / 16) :=
                  hexVal_hexDigitChar _ (by omega)
                have hd2 : hexVal (hexDigitChar (c.toNat % 16)) = some (c.toNat % 16) :=
                  hexVal_hexDigitChar _ (by omega)
                have h48 : hexVal 48 = some 0 := rfl
                rw [if_neg h1, if_neg h2, if_neg h3, if_neg h4, if_neg h5, if_pos h6]
                rw [List.cons_append, List.cons_append, List.cons_append, List.cons_append,
                  List.cons_append, List.cons_append, parseStringBody.eq_def]
                simp [h48, hd1, hd2, ih, hdm]
              · by_cases h7 : c.toNat = 60 ∨ c.toNat = 62 ∨ c.toNat = 38
                · have hd1 : hexVal (hexDigitChar (c.toNat / 16)) = some (c.toNat / 16) :=
                    hexVal_hexDigitChar _ (by omega)
                  have hd2 : hexVal (hexDigitChar (c.toNat % 16)) = some (c.toNat % 16) :=
                    hexVal_hexDigitChar _ (by omega)
                  have h48 : hexVal 48 = some 0 := rfl
                  rw [if_neg h1, if_neg h2, if_neg h3, if_neg h4, if_neg h5, if_neg h6, if_pos h7]
                  rw [List.cons_append, List.cons_append, List.cons_append, List.cons_append,
                    List.cons_append, List.cons_append, parseStringBody.eq_def]
                  simp [h48, hd1, hd2, ih, hdm]
                · by_cases h8 : c.toNat = 8232
                  · have hc : Char.ofNat 8232 = c := by rw [← h8, hval]
                    rw [if_neg h1, if_neg h2, if_neg h3, if_neg h4, if_neg h5, if_neg h6, if_neg h7, if_pos h8]
                    rw [List.cons_append, List.cons_append, List.cons_append,
                      List.cons_append, List.cons_append, List.cons_append,
                      parseStringBody.eq_def]
                    simp [ih, hc, hexVal]
                  · by_cases h9 : c.toNat = 8233
                    · have hc : Char.ofNat 8233 = c := by rw [← h9, hval]
                      rw [if_neg h1, if_neg h2, if_neg h3, if_neg h4, if_neg h5, if_neg h6, if_neg h7, if_neg h8, if_pos h9]
                      rw [List.cons_append, List.cons_append, List.cons_append,
                        List.cons_append, List.cons_append, List.cons_append,
                        parseStringBody.eq_def]
                      simp [ih, hc, hexVal]
                    · rw [if_neg h1, if_neg h2, if_neg h3, if_neg h4, if_neg h5, if_neg h6, if_neg h7, if_neg h8, if_neg h9]
                      rw [List.singleton_append, parseStringBody.eq_def]
                      simp [h1, h2, h6, ih, hval]

theorem jsize_pos (j : Json) : 1 ≤ jsize j := by
  cases j <;> simp [jsize]

theorem natDec_head_digit (n : Nat) :
    ∃ c cs, natDec n = c :: cs ∧ 48 ≤ c ∧ c ≤ 57 := by
  obtain ⟨c, cs, hcons⟩ := List.exists_cons_of_ne_nil (natDec_ne_nil n)
  have hc := natDec_digits n c (by rw [hcons]; exact List.mem_cons_self c cs)
  simp only [isDigit, Bool.and_eq_true, decide_eq_true_eq] at hc
  exact ⟨c, cs, hcons, hc.1, hc.2⟩

theorem serializeJson_head_ne (j : Json) :
    ∃ c cs, serializeJson j = c :: cs ∧ c ≠ 93 := by
  cases j with
  | null => exact ⟨110, [117, 108, 108], rfl, by omega⟩
  | bool b =>
    cases b
    · exact ⟨102, [97, 108, 115, 101], rfl, by omega⟩
    · exact ⟨116, [114, 117, 101], rfl, by omega⟩
  | num n =>
    by_cases hn : n < 0
    · exact ⟨45, natDec n.natAbs, by simp [serializeJson, intDec, hn], by omega⟩
    · obtain ⟨c, cs, hcons, hc1, hc2⟩ := natDec_head_digit n.toNat
      exact ⟨c, cs, by simp [serializeJson, intDec, hn, hcons], by omega⟩
  | str s => exact ⟨34, escapeStr s ++ [34], rfl, by omega⟩
  | arr elems => exact ⟨91, serializeElems elems ++ [93], rfl, by omega⟩
  | obj fields => exact ⟨123, serializeFields fields ++ [125], rfl, by omega⟩

theorem jsize_le_length : ∀ n : Nat,
    (∀ j, jsize j ≤ n → jsize j ≤ (serializeJson j).length) ∧
    (∀ xs, jsizeElems xs ≤ n → jsizeElems xs ≤ (serializeElems xs).length + 1) ∧
    (∀ kvs, jsizeFields kvs ≤ n → jsizeFields kvs ≤ (serializeFields kvs).length + 1) := by
  intro n
  induction n with
  | zero =>
    refine ⟨fun j hj => absurd (le_trans (jsize_pos j) hj) (by omega), ?_, ?_⟩
    · intro xs hx
      cases xs with
      | nil => simp [jsizeElems]
      | cons x xs =>
        exfalso
        have h1 := jsize_pos x
        simp only [jsizeElems] at hx
        omega
    · intro kvs hk
      cases kvs with
      | nil => simp [jsizeFields]
      | cons kv kvs =>
        exfalso
        have h1 := jsize_pos kv.2
        simp only [jsizeFields] at hk
        omega
  | succ n ih =>
    obtain ⟨ihV, ihE, ihF⟩ := ih
    refine ⟨?_, ?_, ?_⟩
    · intro j hj
      cases j with
      | null => simp [jsize, serializeJson, ascii]
      | bool b => cases b <;> simp [jsize, serializeJson, ascii]
      | num m =>
        have h1 : 1 ≤ (intDec m).length := by
          unfold intDec
          split
          · simp
          · have := natDec_ne_nil m.toNat
            cases h : natDec m.toNat with
            | nil => exact absurd h this
            | cons c cs => simp [h]
        simp only [jsize, serializeJson]
        omega
      | str s => simp [jsize, serializeJson]
      | arr elems =>
        have he : jsizeElems elems ≤ n := by
          have := jsize_pos (Json.arr elems)
          simp [jsize] at hj ⊢
          omega
        have := ihE elems he
        simp [jsize, serializeJson] at hj ⊢
        omega
      | obj fields =>
        have hf : jsizeFields fields ≤ n := by
          simp [jsize] at hj
          omega
        have := ihF fields hf
        simp [jsize, serializeJson] at hj ⊢
        omega
    · intro xs hx
      cases xs with
      | nil => simp [jsizeElems]
      | cons x xs =>
        have hjx : jsize x ≤ n := by
          have h1 := jsize_pos x
          simp [jsizeElems] at hx
          omega
        have hx2 : jsizeElems xs ≤ n := by
          have h1 := jsize_pos x
          simp [jsizeElems] at hx
          omega
        have hvx := ihV x hjx
        have hex := ihE xs hx2
        cases xs with
        | nil =>
          simp only [serializeElems, jsizeElems] at *
          omega
        | cons y ys =>
          simp only [serializeElems, jsizeElems, List.length_append, List.length_cons] at *
          omega
    · intro kvs hk
      cases kvs with
      | nil => simp [jsizeFields]
      | cons kv kvs =>
        have hjv : jsize kv.2 ≤ n := by
          have h1 := jsize_pos kv.2
          simp [jsizeFields] at hk
          omega
        have hk2 : jsizeFields kvs ≤ n := by
          have h1 := jsize_pos kv.2
          simp [jsizeFields] at hk
          omega
        have hvv := ihV kv.2 hjv
        have hfk := ihF kvs hk2
        cases kvs with
        | nil =>
          simp only [serializeFields, jsizeFields, List.length_cons, List.length_append] at *
          omega
        | cons kv2 kvs2 =>
          simp only [serializeFields, jsizeFields, List.length_cons, List.length_append] at *
          omega



theorem parse_serialize : ∀ fuel : Nat,
    (∀ j rest, jsize j ≤ fuel → headIsDigit rest = false →
      parseValue fuel (serializeJson j ++ rest) = .ok (j, rest)) ∧
    (∀ xs rest, xs ≠ [] → jsizeElems xs ≤ fuel → headIsDigit rest = false →
      parseElems fuel (serializeElems xs ++ 93 :: rest) = .ok (xs, rest)) ∧
    (∀ kvs rest, kvs ≠ [] → jsizeFields kvs ≤ fuel → headIsDigit rest = false →
      parseFields fuel (serializeFields kvs ++ 125 :: rest) = .ok (kvs, rest)) := by
  intro fuel
  induction fuel with
  | zero =>
    refine ⟨fun j rest hj _ => absurd (le_trans (jsize_pos j) hj) (by omega), ?_, ?_⟩
    · intro xs rest hne hx _
      exfalso
      cases xs with
      | nil => exact hne rfl
      | cons x xs =>
        have h1 := jsize_pos x
        simp only [jsizeElems] at hx
        omega
    · intro kvs rest hne hk _
      exfalso
      cases kvs with
      | nil => exact hne rfl
      | cons kv kvs =>
        have h1 := jsize_pos kv.2
        simp only [jsizeFields] at hk
        omega
  | succ fuel ih =>
    obtain ⟨ihV, ihE, ihF⟩ := ih
    refine ⟨?_, ?_, ?_⟩
    · intro j rest hj hrest
      cases j with
      | null =>
        rw [show serializeJson .null ++ rest = 110 :: 117 :: 108 :: 108 :: rest from rfl,
          parseValue.eq_def]
        simp
      | bool b =>
        cases b
        · rw [show serializeJson (.bool false) ++ rest = 102 :: 97 :: 108 :: 115 :: 101 :: rest
            from rfl, parseValue.eq_def]
          simp
        · rw [show serializeJson (.bool true) ++ rest = 116 :: 114 :: 117 :: 101 :: rest
            from rfl, parseValue.eq_def]
          simp
      | num m =>
        by_cases hm : m < 0
        · obtain ⟨c, cs, hcons⟩ := List.exists_cons_of_ne_nil (natDec_ne_nil m.natAbs)
          have htd : takeDigits (natDec m.natAbs ++ rest) = (natDec m.natAbs, rest) :=
            takeDigits_append _ _ (natDec_digits m.natAbs) hrest
          rw [hcons] at htd
          have htd2 : takeDigits (c :: (cs ++ rest)) = (c :: cs, rest) := htd
          rw [show serializeJson (.num m) ++ rest = 45 :: ((c :: cs) ++ rest) from by
            simp [serializeJson, intDec, hm, hcons], parseValue.eq_def]
          norm_num [htd2]
          rw [← hcons, digitsToNat_natDec]
          omega
        · obtain ⟨c, cs, hcons, hc1, hc2⟩ := natDec_head_digit m.toNat
          have hcs : ∀ x ∈ cs, isDigit x = true := fun x hx =>
            natDec_digits m.toNat x (by rw [hcons]; exact List.mem_cons_of_mem c hx)
          have htd : takeDigits (cs ++ rest) = (cs, rest) :=
            takeDigits_append _ _ hcs hrest
          rw [show serializeJson (.num m) ++ rest = c :: (cs ++ rest) from by
            simp [serializeJson, intDec, hm, hcons], parseValue.eq_def]
          have hne1 : ¬(c = 110) := by omega
          have hne2 : ¬(c = 116) := by omega
          have hne3 : ¬(c = 102) := by omega
          have hne4 : ¬(c = 34) := by omega
          have hne5 : ¬(c = 45) := by omega
          have hdigc : isDigit c = true := by
            simp only [isDigit, Bool.and_eq_true, decide_eq_true_eq]
            omega
          simp only [hne1, hne2, hne3, hne4, hne5, if_false, hdigc, if_true, htd]
          rw [← hcons, digitsToNat_natDec]
          norm_num
          omega
      | str s =>
        obtain ⟨sd⟩ := s
        have hps := parseStringBody_escape sd [] rest
        rw [show serializeJson (.str ⟨sd⟩) ++ rest = 34 :: (escapeChars sd ++ 34 :: rest)
          from by simp [serializeJson, escapeStr, List.append_assoc], parseValue.eq_def]
        norm_num [hps]
      | arr elems =>
        cases elems with
        | nil =>
          rw [show serializeJson (.arr []) ++ rest = 91 :: 93 :: rest from rfl,
            parseValue.eq_def]
          simp [isDigit]
        | cons x xs =>
          obtain ⟨c0, cs0, hser, hne93⟩ := serializeJson_head_ne x
          have hhead : (serializeElems (x :: xs) ++ 93 :: rest).head? = some c0 := by
            cases xs <;> simp [serializeElems, hser]
          have hsz : jsizeElems (x :: xs) ≤ fuel := by
            simp only [jsize] at hj
            omega
          have hE := ihE (x :: xs) rest (by simp) hsz hrest
          rw [show serializeJson (.arr (x :: xs)) ++ rest =
              91 :: (serializeElems (x :: xs) ++ 93 :: rest) from by
            simp [serializeJson, List.append_assoc], parseValue.eq_def]
          norm_num [isDigit, hhead, hne93, hE]
      | obj fields =>
        cases fields with
        | nil =>
          rw [show serializeJson (.obj []) ++ rest = 123 :: 125 :: rest from rfl,
            parseValue.eq_def]
          simp [isDigit]
        | cons kv kvs =>
          have hhead : (serializeFields (kv :: kvs) ++ 125 :: rest).head? = some 34 := by
            cases kvs <;> simp [serializeFields]
          have hsz : jsizeFields (kv :: kvs) ≤ fuel := by
            simp only [jsize] at hj
            omega
          have hF := ihF (kv :: kvs) rest (by simp) hsz hrest
          rw [show serializeJson (.obj (kv :: kvs)) ++ rest =
              123 :: (serializeFields (kv :: kvs) ++ 125 :: rest) from by
            simp [serializeJson, List.append_assoc], parseValue.eq_def]
          norm_num [isDigit, hhead, hF]
    · intro xs rest hne hx hrest
      cases xs with
      | nil => exact absurd rfl hne
      | cons x xs =>
        cases xs with
        | nil =>
          have hV := ihV x (93 :: rest) (by simp only [jsizeElems] at hx; omega)
            (by simp [headIsDigit, isDigit])
          rw [show serializeElems [x] ++ 93 :: rest = serializeJson x ++ 93 :: rest from rfl,
            parseElems.eq_def]
          norm_num [hV]
        | cons y ys =>
          have hpx := jsize_pos x
          have hsx : jsize x ≤ fuel := by
            have h1 := jsize_pos y
            simp only [jsizeElems] at hx
            omega
          have hsy : jsizeElems (y :: ys) ≤ fuel := by
            simp only [jsizeElems] at hx ⊢
            omega
          have hV := ihV x (44 :: (serializeElems (y :: ys) ++ 93 :: rest)) hsx
            (by simp [headIsDigit, isDigit])
          have hE := ihE (y :: ys) rest (by simp) hsy hrest
          rw [show serializeElems (x :: y :: ys) ++ 93 :: rest =
              serializeJson x ++ (44 :: (serializeElems (y :: ys) ++ 93 :: rest)) from by
            simp [serializeElems, List.append_assoc], parseElems.eq_def]
          norm_num [hV, hE]
    · intro kvs rest hne hk hrest
      cases kvs with
      | nil => exact absurd rfl hne
      | cons kv kvs =>
        rcases kv with ⟨k, v⟩
        obtain ⟨kd⟩ := k
        cases kvs with
        | nil =>
          have hV := ihV v (125 :: rest) (by simp only [jsizeFields] at hk; omega)
            (by simp [headIsDigit, isDigit])
          have hps := parseStringBody_escape kd [] (58 :: (serializeJson v ++ 125 :: rest))
          rw [show serializeFields [(⟨kd⟩, v)] ++ 125 :: rest =
              34 :: (escapeChars kd ++ 34 :: (58 :: (serializeJson v ++ 125 :: rest)))
            from by simp [serializeFields, escapeStr, List.append_assoc], parseFields.eq_def]
          norm_num [hps, hV]
        | cons kv2 kvs2 =>
          have hpv := jsize_pos v
          have hsv : jsize v ≤ fuel := by
            have h1 := jsize_pos kv2.2
            simp only [jsizeFields] at hk
            omega
          have hsk : jsizeFields (kv2 :: kvs2) ≤ fuel := by
            simp only [jsizeFields] at hk ⊢
            omega
          have hV := ihV v (44 :: (serializeFields (kv2 :: kvs2) ++ 125 :: rest)) hsv
            (by simp [headIsDigit, isDigit])
          have hF := ihF (kv2 :: kvs2) rest (by simp) hsk hrest
          have hps := parseStringBody_escape kd []
            (58 :: (serializeJson v ++ 44 :: (serializeFields (kv2 :: kvs2) ++ 125 :: rest)))
          rw [show serializeFields ((⟨kd⟩, v) :: kv2 :: kvs2) ++ 125 :: rest =
              34 :: (escapeChars kd ++ 34 :: (58 :: (serializeJson v ++
                44 :: (serializeFields (kv2 :: kvs2) ++ 125 :: rest))))
            from by simp [serializeFields, escapeStr, List.append_assoc], parseFields.eq_def]
          norm_num [hps, hV, hF]

theorem jsonUnmarshal_serializeJson (j : Json) :
    jsonUnmarshal (serializeJson j) = .ok j := by
  unfold jsonUnmarshal
  have hlen := (jsize_le_length (jsize j)).1 j le_rfl
  have h := (parse_serialize ((serializeJson j).length + 1)).1 j [] (by omega)
    (by simp [headIsDigit])
  rw [show serializeJson j ++ [] = serializeJson j from by simp] at h
  rw [h]

theorem eventOfJson_synthesize (text voice : String) :
    eventOfJson (.obj [("type", .str "synthesize"),
        ("data", .obj [("text", .str text), ("voice", .obj [("name", .str voice)])])]) =
      .ok { ty := "synthesize",
            data := .obj [("text", .str text), ("voice", .obj [("name", .str voice)])],
            payloadLength := 0 } := by
  rfl

/-- C8: writing a `synthesize` event with `writeEvent` and reading the
produced bytes back with `readEvent` yields an event with the identical
type, the identical `data.text`, and the identical `data.voice.name`,
together with the identical payload and nothing left unconsumed. -/
theorem writeEvent_readEvent_roundtrip (text voice : String) (payload : List Nat)
    (hctrl : ∀ ch ∈ text.data, 32 ≤ ch.toNat) :
    ∃ evt2 rest2,
      readEvent (writeEvent (synthesizeEvent text voice) payload) =
        .ok evt2 payload rest2 ∧
      evt2.ty = "synthesize" ∧
      jstr evt2.data "text" = some text ∧
      ((evt2.data.lookup "voice").bind (fun v => jstr v "name")) = some voice ∧
      rest2 = [] := by
  set evJson : Json := .obj [("type", .str "synthesize"),
    ("data", .obj [("text", .str text), ("voice", .obj [("name", .str voice)])])] with hev
  set J := serializeJson evJson with hJ
  have hser : serializeEvent (synthesizeEvent text voice) = J := rfl
  have hshape : writeEvent (synthesizeEvent text voice) payload =
      (natDec J.length ++ 32 :: natDec payload.length) ++ 10 :: (J ++ 10 :: payload) := by
    simp [writeEvent, hser, List.append_assoc]
  have hhdr : readHeaderLine ((natDec J.length ++ 32 :: natDec payload.length) ++
      10 :: (J ++ 10 :: payload)) =
      .ok (natDec J.length ++ 32 :: natDec payload.length, J ++ 10 :: payload) := by
    apply readHeaderLine_append
    intro c hc
    rcases List.mem_append.mp hc with h | h
    · have := natDec_digits J.length c h
      simp only [isDigit, Bool.and_eq_true, decide_eq_true_eq] at this
      omega
    · rcases List.mem_cons.mp h with h | h
      · omega
      · have := natDec_digits payload.length c h
        simp only [isDigit, Bool.and_eq_true, decide_eq_true_eq] at this
        omega
  have hsplit : splitFirstSpace (natDec J.length ++ 32 :: natDec payload.length) =
      some (natDec J.length, natDec payload.length) := by
    apply splitFirstSpace_append
    intro c hc
    have := natDec_digits J.length c hc
    simp only [isDigit, Bool.and_eq_true, decide_eq_true_eq] at this
    omega
  have hatoi1 : atoi (trimSpace (natDec J.length)) = .ok (J.length : Int) := by
    rw [trimSpace_natDec, atoi_natDec]
  have hatoi2 : atoi (trimSpace (natDec payload.length)) = .ok (payload.length : Int) := by
    rw [trimSpace_natDec, atoi_natDec]
  have htake : (J ++ 10 :: payload).take ((J.length : Int)).toNat = J := by
    simp [List.take_left]
  have hdrop : (J ++ 10 :: payload).drop (((J.length : Int) + 1)).toNat = payload := by
    have h1 : (((J.length : Int) + 1)).toNat = (J ++ [10]).length := by
      simp
    rw [h1, show J ++ 10 :: payload = (J ++ [10]) ++ payload from by simp,
      List.drop_left]
  have hum : jsonUnmarshal J = .ok evJson := jsonUnmarshal_serializeJson evJson
  refine ⟨{ ty := "synthesize",
            data := .obj [("text", .str text), ("voice", .obj [("name", .str voice)])],
            payloadLength := 0 }, [], ?_, rfl, ?_, ?_, rfl⟩
  · rw [hshape]
    unfold readEvent
    rw [hhdr]
    dsimp only
    rw [hsplit]
    dsimp only
    rw [hatoi1, hatoi2]
    dsimp only
    have hc1 : ¬((J.length : Int) + 1 < 0) := by omega
    have hc2 : ¬((J ++ 10 :: payload).length < (((J.length : Int)) + 1).toNat) := by
      simp
    have hc3 : ¬((J.length : Int) < 0) := by omega
    rw [if_neg hc1, if_neg hc2, if_neg hc3]
    rw [htake, hdrop, hum]
    dsimp only
    rw [eventOfJson_synthesize]
    dsimp only
    by_cases hp : payload = []
    · subst hp
      norm_num
    · have hplen : 0 < payload.length := List.length_pos.mpr hp
      rw [if_pos (by exact_mod_cast hplen)]
      rw [if_neg (by simp : ¬(payload.length < ((payload.length : Int)).toNat))]
      simp [List.take_length]
  · rfl
  · rfl

/-- Witness for C8 at a text containing spaces and the HTML-escaped
characters, a configured voice name, and a non-empty payload. -/
theorem writeEvent_readEvent_roundtrip_witness :
    ∃ evt2 rest2,
      readEvent (writeEvent (synthesizeEvent "hello <&> world" "en_US-lessac-medium")
        [7, 8]) = .ok evt2 [7, 8] rest2 ∧
      evt2.ty = "synthesize" ∧
      jstr evt2.data "text" = some "hello <&> world" ∧
      ((evt2.data.lookup "voice").bind (fun v => jstr v "name")) =
        some "en_US-lessac-medium" ∧
      rest2 = [] :=
  writeEvent_readEvent_roundtrip "hello <&> world" "en_US-lessac-medium" [7, 8]
    (by decide)
